import Mathlib

/-!
# GoforPomodoro: the session timer state machine

A shallow embedding of `internal/sessionmanager/RunningSession.go` (the control
operations `StartSession`, `PauseSession`, `CancelSession`, `ResumeSession` and the
timer loop `SpawnSessionTimer`), of the session queries and the default session of
`model.go`, of the cancel action of `internal/botmodule/Actions.go` and of the text
command parser `ParsePatternToSession` of `internal/inputprocess/parsing.go`.

Conventions of the embedding.

* A Go pointer `*Session` that may be nil is an `Option Session`.
* Go `int` fields are `Int`, and `int` is 64 bits wide. The sprint counter's decrement
  `SprintDuration -= 1` is `decrementInt`, which wraps from the smallest value to the
  largest; the products `* 60` of the parser are wrapped by `wrapInt`.
* Wall-clock time is an `Int` number of seconds; every call of `time.Now()` that an
  operation makes is the explicit argument `now`.
* A Go channel is a `Chan`: its buffered values and whether it was closed. A nil
  channel reference is `none`. Sending on a closed channel and closing a nil or a
  closed channel are run-time panics of the language, kept as `GoPanic` values.
* The four handlers passed to the loop are observers: each call is recorded, in order,
  in the `calls` field of the loop state.
* `go SpawnSessionTimer(...)` is the flag `spawned` of the control result; the loop
  itself runs over an explicit list of clock readings, one per iteration.
-/

namespace GoforPomodoro

/-! ## Data model -/

/-- The `PomodoroEndKind` constants of `RunningSession.go`. -/
inductive PomodoroEndKind where
  | PomodoroFinished
  | PomodoroCanceled
  deriving DecidableEq, Repr

/-- The `DispatchAction` value sent through the action channel; the loop reads its
five boolean fields. -/
structure DispatchAction where
  RestStarted : Bool
  RestFinished : Bool
  Paused : Bool
  Canceled : Bool
  Finished : Bool
  deriving DecidableEq, Repr

/-- The literal `DispatchAction{RestStarted: true}`. -/
def actRestStarted : DispatchAction := ⟨true, false, false, false, false⟩

/-- The literal `DispatchAction{RestFinished: true}`. -/
def actRestFinished : DispatchAction := ⟨false, true, false, false, false⟩

/-- The literal `DispatchAction{Paused: true}`. -/
def actPaused : DispatchAction := ⟨false, false, true, false, false⟩

/-- The literal `DispatchAction{Canceled: true}`. -/
def actCanceled : DispatchAction := ⟨false, false, false, true, false⟩

/-- The literal `DispatchAction{Finished: true}`. -/
def actFinished : DispatchAction := ⟨false, false, false, false, true⟩

/-- A Go channel of actions: the values waiting in it and whether it was closed. -/
structure Chan where
  buf : List DispatchAction
  closed : Bool
  deriving DecidableEq, Repr

/-- The progress fields reached as `currentSession.Data.…` in `RunningSession.go`
(`SprintDuration`, `PomodoroDuration`, `RestDuration`, `isRest`, `isPaused`,
`isCancel` of `model.go`, and `IsFinished`). -/
structure SessionData where
  SprintDuration : Int
  PomodoroDuration : Int
  RestDuration : Int
  IsRest : Bool
  IsPaused : Bool
  IsCancel : Bool
  IsFinished : Bool
  deriving DecidableEq, Repr

/-- The session record: the configured `…Set` parameters of `model.go`, the progress
fields, the two deadlines (`*time.Time`, nil is `none`) and the action channel
reference used by `RunningSession.go`. -/
structure Session where
  SprintDurationSet : Int
  PomodoroDurationSet : Int
  RestDurationSet : Int
  Data : SessionData
  EndNextSprintTimestamp : Option Int
  EndNextRestTimestamp : Option Int
  ActionsChannel : Option Chan
  deriving DecidableEq, Repr

/-- The error values the control operations return (`errors.New(...)`). -/
inductive SessionError where
  | effectivelyNil
  | alreadyPaused
  | alreadyCanceled
  | alreadyRunning
  | wasCanceled
  deriving DecidableEq, Repr

/-- Run-time panics of the Go language that the modelled code can raise. -/
inductive GoPanic where
  | closeOfNilChannel
  | closeOfClosedChannel
  | sendOnClosedChannel
  | nilDereference
  deriving DecidableEq, Repr

/-! ## Session queries (`model.go`) -/

/-- `Session.isZero` of `model.go`: `s == nil || s.PomodoroDurationSet == 0`. -/
def isZero (s : Option Session) : Bool :=
  match s with
  | none => true
  | some s => s.PomodoroDurationSet == 0

/-- `Session.isStopped` of `model.go`. -/
def isStopped (s : Session) : Bool :=
  if decide (s.Data.PomodoroDuration ≤ 0) || decide (s.Data.SprintDuration < 0)
      || s.Data.IsPaused || s.Data.IsCancel then
    true
  else
    false

/-- `Session.isCanceled` of `model.go`. -/
def isCanceled (s : Session) : Bool :=
  s.Data.IsCancel

/-! ## Helpers of the session package that are not part of the sources -/

/-- Modelled from the spec: `AssignTimestamps` is missing from the sources. It
recomputes the two deadlines as "now + remaining duration" of the work and of the
rest interval, and touches no other field. -/
def AssignTimestamps (now : Int) (s : Session) : Session :=
  { s with
    EndNextSprintTimestamp := some (now + s.Data.PomodoroDuration)
    EndNextRestTimestamp := some (now + s.Data.RestDuration) }

/-- Modelled from the spec: `GetPomodoroDuration` is missing from the sources. The
remaining work time is derived from the deadline: deadline minus now (the cached
value when no deadline was stamped yet). -/
def GetPomodoroDuration (now : Int) (s : Session) : Int :=
  match s.EndNextSprintTimestamp with
  | some deadline => deadline - now
  | none => s.Data.PomodoroDuration

/-- Modelled from the spec: `GetRestDuration` is missing from the sources. The
remaining rest time is derived from the deadline: deadline minus now (the cached
value when no deadline was stamped yet). -/
def GetRestDuration (now : Int) (s : Session) : Int :=
  match s.EndNextRestTimestamp with
  | some deadline => deadline - now
  | none => s.Data.RestDuration

/-- Modelled from the spec: `ReadingActionChannel` is missing from the sources. It
hands out the session's queue, creating an empty open one when the reference is nil
(the queue is recreated for each new loop). -/
def ReadingActionChannel (s : Session) : Chan × Session :=
  match s.ActionsChannel with
  | some c => (c, s)
  | none => (⟨[], false⟩, { s with ActionsChannel := some ⟨[], false⟩ })

/-- Modelled from the spec: `WritingActionChannel` is missing from the sources. It
hands out the same queue as `ReadingActionChannel`. -/
def WritingActionChannel (s : Session) : Chan × Session :=
  match s.ActionsChannel with
  | some c => (c, s)
  | none => (⟨[], false⟩, { s with ActionsChannel := some ⟨[], false⟩ })

/-- Modelled from the spec: `Session.Cancel` is missing from the sources. The
synchronous cancellation of a paused session sets the canceled flag directly. -/
def Cancel (s : Session) : Session :=
  { s with Data := { s.Data with IsCancel := true } }

/-- Modelled from the spec: `Session.IsPaused` is missing from the sources; it reads
the paused flag. -/
def IsPaused (s : Session) : Bool :=
  s.Data.IsPaused

/-! ## Channel operations of the Go language -/

/-- The statement `WritingActionChannel() <- a`: a send on a closed channel panics,
otherwise the value is appended to the (adequately buffered) queue. -/
def sendAction (s : Session) (a : DispatchAction) : Except GoPanic Session :=
  let (c, s1) := WritingActionChannel s
  if c.closed then
    .error GoPanic.sendOnClosedChannel
  else
    .ok { s1 with ActionsChannel := some { c with buf := c.buf ++ [a] } }

/-- The builtin `close(ch)`: closing a nil channel and closing a closed channel are
run-time panics. -/
def closeChan (ch : Option Chan) : Except GoPanic Chan :=
  match ch with
  | none => .error GoPanic.closeOfNilChannel
  | some c =>
    if c.closed then .error GoPanic.closeOfClosedChannel
    else .ok { c with closed := true }

/-! ## Arithmetic of the Go `int` (64 bits) -/

/-- The largest value of a 64-bit Go `int`. -/
def maxInt : Int := 2 ^ 63 - 1

/-- The smallest value of a 64-bit Go `int`. -/
def minInt : Int := -(2 ^ 63)

/-- The value a 64-bit Go `int` holds after an arithmetic operation whose exact
result is `x`: `x` modulo `2^64`, taken in the signed range. -/
def wrapInt (x : Int) : Int :=
  (x + 2 ^ 63) % 2 ^ 64 - 2 ^ 63

/-- The Go statement `x -= 1` on a 64-bit `int`: one less, and from the smallest value
the decrement wraps to the largest. On every value of the `int` range this is
`wrapInt (x - 1)`. -/
def decrementInt (x : Int) : Int :=
  if x = minInt then maxInt else x - 1

/-! ## Control operations (`RunningSession.go`) -/

/-- What a control operation leaves behind: the returned error (`none` is nil), the
session after the call and whether a timer loop was spawned. -/
structure ControlResult where
  err : Option SessionError
  session : Option Session
  spawned : Bool
  deriving DecidableEq, Repr

/-- `StartSession` of `RunningSession.go`. -/
def StartSession (now : Int) (currentSession : Option Session) : ControlResult :=
  match currentSession with
  | none =>
    if isZero none then ⟨some SessionError.effectivelyNil, none, false⟩
    else ⟨none, none, false⟩
  | some s =>
    if isZero (some s) then
      ⟨some SessionError.effectivelyNil, some s, false⟩
    else
      let s1 := { s with Data := { s.Data with IsPaused := false } }
      let s2 := { s1 with Data := { s1.Data with IsCancel := false } }
      let s3 := { s2 with
        Data := { s2.Data with SprintDuration := decrementInt s2.Data.SprintDuration } }
      let s4 := AssignTimestamps now s3
      ⟨none, some s4, true⟩

/-- `ResumeSession` of `RunningSession.go`. -/
def ResumeSession (now : Int) (currentSession : Option Session) : ControlResult :=
  match currentSession with
  | none =>
    if isZero none then ⟨some SessionError.effectivelyNil, none, false⟩
    else ⟨none, none, false⟩
  | some s =>
    if isZero (some s) then
      ⟨some SessionError.effectivelyNil, some s, false⟩
    else if !isStopped s then
      ⟨some SessionError.alreadyRunning, some s, false⟩
    else if isCanceled s then
      ⟨some SessionError.wasCanceled, some s, false⟩
    else
      let s1 := { s with Data := { s.Data with IsPaused := false } }
      let s2 := AssignTimestamps now s1
      ⟨none, some s2, true⟩

/-- How a call of `PauseSession` or `CancelSession` ends: it returns (with an error
or nil) or it panics. -/
inductive SendResult where
  | returned (err : Option SessionError) (session : Session)
  | panicked (p : GoPanic)
  deriving DecidableEq, Repr

/-- `PauseSession` of `RunningSession.go`. -/
def PauseSession (currentSession : Session) : SendResult :=
  if currentSession.Data.IsPaused then
    .returned (some SessionError.alreadyPaused) currentSession
  else
    match sendAction currentSession actPaused with
    | .ok s => .returned none s
    | .error p => .panicked p

/-- `CancelSession` of `RunningSession.go`. -/
def CancelSession (currentSession : Session) : SendResult :=
  if isCanceled currentSession then
    .returned (some SessionError.alreadyCanceled) currentSession
  else
    match sendAction currentSession actCanceled with
    | .ok s => .returned none s
    | .error p => .panicked p

/-! ## The timer loop (`SpawnSessionTimer`) -/

/-- One recorded call of a handler passed to the loop. -/
inductive Callback where
  | restBegin
  | restFinished
  | endSession (endKind : PomodoroEndKind)
  | pauseSession
  deriving DecidableEq, Repr

/-- What the loop works on: the session and the handler calls made so far. -/
structure LoopState where
  session : Session
  calls : List Callback
  deriving DecidableEq, Repr

/-- How one pass through the body of `mainLoop` ends. -/
inductive Flow where
  | continueLoop (st : LoopState)
  | breakLoop (st : LoopState)
  | panicked (p : GoPanic) (st : LoopState)
  deriving DecidableEq, Repr

/-- The branch `if ok` of the loop: the handling of a received action. An action
with no field set falls through the `select` and the loop goes round again. -/
def handleAction (now : Int) (action : DispatchAction) (st : LoopState) : Flow :=
  if action.RestStarted || action.RestFinished then
    let st1 : LoopState :=
      if action.RestStarted then
        { session := { st.session with
            Data := { st.session.Data with
              IsRest := true
              RestDuration := st.session.RestDurationSet } }
          calls := st.calls ++ [Callback.restBegin] }
      else st
    let st2 : LoopState :=
      if action.RestFinished then
        { session := { st1.session with
            Data := { st1.session.Data with
              IsRest := false
              PomodoroDuration := st1.session.PomodoroDurationSet } }
          calls := st1.calls ++ [Callback.restFinished] }
      else st1
    .continueLoop { st2 with session := AssignTimestamps now st2.session }
  else if action.Paused || action.Canceled || action.Finished then
    if action.Paused then
      let s1 := { st.session with
        Data := { st.session.Data with PomodoroDuration := GetPomodoroDuration now st.session } }
      let s2 := { s1 with Data := { s1.Data with RestDuration := GetRestDuration now s1 } }
      let s3 := { s2 with Data := { s2.Data with IsPaused := true } }
      .breakLoop { session := s3, calls := st.calls ++ [Callback.pauseSession] }
    else if action.Canceled then
      .breakLoop
        { session := { st.session with Data := { st.session.Data with IsCancel := true } }
          calls := st.calls ++ [Callback.endSession PomodoroEndKind.PomodoroCanceled] }
    else if action.Finished then
      .breakLoop
        { session := { st.session with Data := { st.session.Data with IsFinished := true } }
          calls := st.calls ++ [Callback.endSession PomodoroEndKind.PomodoroFinished] }
    else
      .breakLoop st
  else
    .continueLoop st

/-- A self-dispatch `WritingActionChannel() <- a` followed by `continue mainLoop`. -/
def dispatch (st : LoopState) (s : Session) (a : DispatchAction) : Flow :=
  match sendAction s a with
  | .ok s1 => .continueLoop { st with session := s1 }
  | .error p => .panicked p { st with session := s }

/-- The `default` branch of the loop after its one-second sleep: the comparison of the
clock with the deadline of the current phase. -/
def deadlineCheck (now : Int) (st : LoopState) : Flow :=
  let isRest := st.session.Data.IsRest
  if !isRest then
    match st.session.EndNextSprintTimestamp with
    | none => .panicked GoPanic.nilDereference st
    | some deadline =>
      if now > deadline then
        let s1 := { st.session with
          Data := { st.session.Data with
            SprintDuration := decrementInt st.session.Data.SprintDuration } }
        if s1.Data.SprintDuration < 0 then
          dispatch st s1 actFinished
        else
          dispatch st s1 actRestStarted
      else
        .continueLoop st
  else
    match st.session.EndNextRestTimestamp with
    | none => .panicked GoPanic.nilDereference st
    | some deadline =>
      if now > deadline then
        dispatch st st.session actRestFinished
      else
        .continueLoop st

/-- One pass through the body of `mainLoop`: the `select` with its non-blocking
receive. A waiting value is received, also from a closed channel; an empty closed
channel gives `ok == false`; an empty open channel takes the `default` branch. -/
def loopIteration (now : Int) (st : LoopState) : Flow :=
  let (c, s) := ReadingActionChannel st.session
  match c.buf with
  | action :: rest =>
    handleAction now action
      { st with session := { s with ActionsChannel := some { c with buf := rest } } }
  | [] =>
    if c.closed then
      .breakLoop { st with session := { s with ActionsChannel := none } }
    else
      deadlineCheck now { st with session := s }

/-- How a run of the loop over a finite list of clock readings ends. -/
inductive LoopOutcome where
  | running (st : LoopState)
  | exited (st : LoopState)
  | crashed (p : GoPanic) (st : LoopState)
  deriving DecidableEq, Repr

/-- The function literal deferred after the loop: `close(ActionsChannel)` and then
`ActionsChannel = nil`. -/
def deferredClose (st : LoopState) : LoopOutcome :=
  match closeChan st.session.ActionsChannel with
  | .ok _ => .exited { st with session := { st.session with ActionsChannel := none } }
  | .error p => .crashed p st

/-- `SpawnSessionTimer` of `RunningSession.go`, run over the clock readings of its
successive iterations; `running` when the readings end before the loop does. -/
def SpawnSessionTimer : List Int → LoopState → LoopOutcome
  | [], st => .running st
  | now :: clock, st =>
    match loopIteration now st with
    | .continueLoop st1 => SpawnSessionTimer clock st1
    | .breakLoop st1 => deferredClose st1
    | .panicked p st1 => .crashed p st1

/-! ## The cancel action (`Actions.go`) -/

/-- How `ActionCancelSprint` ends: the error it hands to the communicator and the
state it leaves, or a panic. -/
inductive ActionResult where
  | done (err : Option SessionError) (st : LoopState)
  | panicked (p : GoPanic)
  deriving DecidableEq, Repr

/-- `ActionCancelSprint` of `Actions.go`, on the running session it looked up: a
session that is not paused gets the cancel through `CancelSession`; a paused one is
canceled on the spot and the end handler is called by the action itself. -/
def ActionCancelSprint (st : LoopState) : ActionResult :=
  if !IsPaused st.session then
    match CancelSession st.session with
    | .returned err s => .done err { st with session := s }
    | .panicked p => .panicked p
  else
    .done none
      { session := Cancel st.session
        calls := st.calls ++ [Callback.endSession PomodoroEndKind.PomodoroCanceled] }

/-! ## Sessions used by the scenarios -/

/-- Modelled from the spec: the registry that creates a session is missing from the
sources. A new session has its progress fields equal to the configured parameters (as
in `DefaultSession` of `model.go`), no flag set, no deadline and no queue. -/
def newSession (sprintCount pomodoroDuration restDuration : Int) : Session :=
  { SprintDurationSet := sprintCount
    PomodoroDurationSet := pomodoroDuration
    RestDurationSet := restDuration
    Data :=
      { SprintDuration := sprintCount
        PomodoroDuration := pomodoroDuration
        RestDuration := restDuration
        IsRest := false
        IsPaused := false
        IsCancel := false
        IsFinished := false }
    EndNextSprintTimestamp := none
    EndNextRestTimestamp := none
    ActionsChannel := none }

/-- The session a successful control operation hands to the loop it spawns, with no
handler call recorded yet. -/
def spawnedState (r : ControlResult) : Option LoopState :=
  match r.err, r.session with
  | none, some s => some { session := s, calls := [] }
  | _, _ => none

/-- A run from `StartSession` at time `t0`: the loop it spawns, run over `clock`;
`none` when `StartSession` returned an error. -/
def startAndRun (t0 : Int) (s : Session) (clock : List Int) : Option LoopOutcome :=
  (spawnedState (StartSession t0 (some s))).map (SpawnSessionTimer clock)

/-- The session of scenario A (2 sprints of 1500 s, rests of 300 s, started at time 0)
as its loop leaves it when it exits, with the second work deadline stamped at 3302. -/
def scenarioAFinished : Session :=
  { SprintDurationSet := 2
    PomodoroDurationSet := 1500
    RestDurationSet := 300
    Data :=
      { SprintDuration := -1
        PomodoroDuration := 1500
        RestDuration := 300
        IsRest := false
        IsPaused := false
        IsCancel := false
        IsFinished := true }
    EndNextSprintTimestamp := some 3302
    EndNextRestTimestamp := some 2102
    ActionsChannel := none }

/-- A session of 4 sprints of 1500 s with rests of 300 s as its loop leaves it after
handling a canceled action: started at time 0 (counter 3), canceled flag set, not
paused, queue closed and its reference cleared. -/
def canceledByLoop : Session :=
  { SprintDurationSet := 4
    PomodoroDurationSet := 1500
    RestDurationSet := 300
    Data :=
      { SprintDuration := 3
        PomodoroDuration := 1500
        RestDuration := 300
        IsRest := false
        IsPaused := false
        IsCancel := true
        IsFinished := false }
    EndNextSprintTimestamp := some 1500
    EndNextRestTimestamp := some 300
    ActionsChannel := none }

/-- A session of 4 sprints of 1500 s with rests of 300 s whose sprint counter holds the
smallest value of a 64-bit `int`, in the work phase with the deadlines stamped at time
0 and an empty open queue. -/
def minCounterSession : Session :=
  { SprintDurationSet := 4
    PomodoroDurationSet := 1500
    RestDurationSet := 300
    Data :=
      { SprintDuration := -9223372036854775808
        PomodoroDuration := 1500
        RestDuration := 300
        IsRest := false
        IsPaused := false
        IsCancel := false
        IsFinished := false }
    EndNextSprintTimestamp := some 1500
    EndNextRestTimestamp := some 300
    ActionsChannel := some ⟨[], false⟩ }

/-! ## Observations on results, used in the statements -/

/-- The loop state a pass through the loop body ends with. -/
def Flow.state : Flow → LoopState
  | .continueLoop st => st
  | .breakLoop st => st
  | .panicked _ st => st

/-- The loop state a run of the loop ends with. -/
def LoopOutcome.state : LoopOutcome → LoopState
  | .running st => st
  | .exited st => st
  | .crashed _ st => st

/-- The loop state once the `select` has asked for the reading channel. -/
def openQueue (st : LoopState) : LoopState :=
  { st with session := (ReadingActionChannel st.session).2 }

/-- No action is waiting for the loop: the queue is not created yet or is open and
empty. -/
def emptyQueue (s : Session) : Prop :=
  s.ActionsChannel = none ∨ s.ActionsChannel = some ⟨[], false⟩

/-- The state two iterations after a passed work deadline with sprints left: the
counter is decremented, `RestStarted` was dispatched and handled at time `now`. -/
def restBegun (now : Int) (st : LoopState) : LoopState :=
  { session := AssignTimestamps now
      { st.session with
        Data := { st.session.Data with
          SprintDuration := st.session.Data.SprintDuration - 1
          IsRest := true
          RestDuration := st.session.RestDurationSet } }
    calls := st.calls ++ [Callback.restBegin] }

/-- The state two iterations after a passed rest deadline: `RestFinished` was
dispatched and handled at time `now`. -/
def workBegun (now : Int) (st : LoopState) : LoopState :=
  { session := AssignTimestamps now
      { st.session with
        Data := { st.session.Data with
          IsRest := false
          PomodoroDuration := st.session.PomodoroDurationSet } }
    calls := st.calls ++ [Callback.restFinished] }

/-- The state one iteration after a passed work deadline: the counter is decremented
and one action is queued, `Finished` when the counter became negative and
`RestStarted` otherwise. -/
def deadlineDispatched (st : LoopState) : LoopState :=
  { st with session :=
      { st.session with
        Data := { st.session.Data with
          SprintDuration := decrementInt st.session.Data.SprintDuration }
        ActionsChannel := some
          ⟨[if decrementInt st.session.Data.SprintDuration < 0 then actFinished
            else actRestStarted], false⟩ } }

/-- The state the loop exits with after a passed work deadline with no sprint left:
the counter is decremented, `Finished` was dispatched and handled, the queue is
closed and its reference cleared. -/
def finishedState (st : LoopState) : LoopState :=
  { session :=
      { st.session with
        Data := { st.session.Data with
          SprintDuration := st.session.Data.SprintDuration - 1
          IsFinished := true }
        ActionsChannel := none }
    calls := st.calls ++ [Callback.endSession PomodoroEndKind.PomodoroFinished] }

/-- The state the loop exits with after handling a paused action at time `now`: the
remaining durations are cached, the paused flag is set, the queue is closed and its
reference cleared. -/
def pausedState (now : Int) (st : LoopState) : LoopState :=
  { session :=
      { st.session with
        Data := { st.session.Data with
          PomodoroDuration := GetPomodoroDuration now st.session
          RestDuration := GetRestDuration now st.session
          IsPaused := true }
        ActionsChannel := none }
    calls := st.calls ++ [Callback.pauseSession] }

/-! ## Text commands (`parsing.go`) and the default session (`model.go`)

`ParsePatternToSession` calls the `regexp` and `strconv` packages of the Go library.
The regular expression is a syntax tree matched by backtracking, which finds the match
the library reports (leftmost, then first in the order a backtracking search tries
the alternatives, greedy operators trying the longer repetition first). Go `int` is
64 bits wide here: the products `* 60` wrap modulo `2^64`. -/

/-- The fragment of the regular expressions of Go that `BasicPattern` is written in:
a character, a character range, concatenation, greedy repetition of a character
range, the greedy `?` and a numbered capture group. -/
inductive Regex where
  | char (c : Char)
  | range (lo hi : Char)
  | seq (a b : Regex)
  | starRange (lo hi : Char)
  | opt (a : Regex)
  | group (i : Nat) (a : Regex)
  deriving Repr

/-- The highest group number of an expression. -/
def Regex.numGroups : Regex → Nat
  | .char _ => 0
  | .range _ _ => 0
  | .seq a b => max a.numGroups b.numGroups
  | .starRange _ _ => 0
  | .opt a => a.numGroups
  | .group i a => max i a.numGroups

/-- Whether the code point of `c` lies between those of `lo` and `hi`. -/
def inRange (lo hi c : Char) : Bool :=
  decide (lo.toNat ≤ c.toNat) && decide (c.toNat ≤ hi.toNat)

/-- The submatches of one match as `FindAllStringSubmatch` returns them: entry 0 is the
whole match, entry `i` the text of group `i`, empty when the group took no part. -/
abbrev Submatches := List (List Char)

/-- The part of `inp` that was consumed when `rest` is what is left of it. -/
def consumed (inp rest : List Char) : List Char :=
  inp.take (inp.length - rest.length)

/-- Greedy repetition of a character range in front of the continuation `k`: the
longest run is tried first, then the shorter ones. -/
def matchStar (lo hi : Char) :
    List Char → (List Char → Option Submatches) → Option Submatches
  | [], k => k []
  | c :: cs, k =>
    if inRange lo hi c then
      match matchStar lo hi cs k with
      | some v => some v
      | none => k (c :: cs)
    else
      k (c :: cs)

/-- Backtracking match of `r` at the start of `inp`, followed by the continuation
`k`, which gets the rest of the input and the groups recorded so far. -/
def matchK : Regex → List Char → Submatches →
    (List Char → Submatches → Option Submatches) → Option Submatches
  | .char c, inp, caps, k =>
    match inp with
    | x :: rest => if x = c then k rest caps else none
    | [] => none
  | .range lo hi, inp, caps, k =>
    match inp with
    | x :: rest => if inRange lo hi x then k rest caps else none
    | [] => none
  | .seq a b, inp, caps, k =>
    matchK a inp caps (fun rest caps1 => matchK b rest caps1 k)
  | .starRange lo hi, inp, caps, k =>
    matchStar lo hi inp (fun rest => k rest caps)
  | .opt a, inp, caps, k =>
    match matchK a inp caps k with
    | some v => some v
    | none => k inp caps
  | .group i a, inp, caps, k =>
    matchK a inp caps (fun rest caps1 => k rest (caps1.set i (consumed inp rest)))

/-- The match of `r` that starts at the first character of `inp`, if there is one. -/
def matchAt (r : Regex) (inp : List Char) : Option Submatches :=
  matchK r inp (List.replicate (r.numGroups + 1) [])
    (fun rest caps => some (caps.set 0 (consumed inp rest)))

/-- The first element of `r.FindAllStringSubmatch(text, -1)`: the leftmost match.
`ParsePatternToSession` leaves its loop over the matches in the first pass (`break`),
so the first match is the only one it reads; `none` stands for no match at all. -/
def firstSubmatch (r : Regex) : List Char → Option Submatches
  | [] => matchAt r []
  | c :: cs =>
    match matchAt r (c :: cs) with
    | some v => some v
    | none => firstSubmatch r cs

/-- The expression `[1-9]\d*`. -/
def numeralPattern : Regex :=
  .seq (.range '1' '9') (.starRange '0' '9')

/-- The constant `BasicPattern` of `parsing.go`,
`\/([1-9]\d*)(for([1-9]\d*)(rest([1-9]\d*))?)?`, as a syntax tree. -/
def BasicPattern : Regex :=
  .seq (.char '/')
    (.seq (.group 1 numeralPattern)
      (.opt (.group 2
        (.seq (.char 'f') (.seq (.char 'o') (.seq (.char 'r')
          (.seq (.group 3 numeralPattern)
            (.opt (.group 4
              (.seq (.char 'r') (.seq (.char 'e') (.seq (.char 's') (.seq (.char 't')
                (.group 5 numeralPattern))))))))))))))

/-- The constant `MinutesGroup` of `parsing.go`. -/
def MinutesGroup : Nat := 1

/-- The constant `CardinalityGroup` of `parsing.go`. -/
def CardinalityGroup : Nat := 3

/-- The constant `RestGroup` of `parsing.go`. -/
def RestGroup : Nat := 5

/-- The number a list of decimal digits denotes, read from the left. -/
def decimalValue (ds : List Char) : Nat :=
  ds.foldl (fun acc c => acc * 10 + (c.toNat - 48)) 0

/-- The function `strconv.Atoi`: an optional sign followed by at least one decimal
digit and nothing else; `none` stands for an error, which is a syntax error or a value
outside the range of `int`. -/
def Atoi (s : List Char) : Option Int :=
  let signed : Bool × List Char :=
    match s with
    | '-' :: body => (true, body)
    | '+' :: body => (false, body)
    | _ => (false, s)
  if signed.2 = [] then
    none
  else if signed.2.all (inRange '0' '9') then
    let v : Int := if signed.1 then -(decimalValue signed.2 : Int) else decimalValue signed.2
    if minInt ≤ v ∧ v ≤ maxInt then some v else none
  else
    none

/-- Modelled from the spec: the type `SessionDefaultData` is missing from the sources.
It is the tuple of configured parameters (sprint count, seconds of work, seconds of
rest) with the three fields `ParsePatternToSession` writes. -/
structure SessionDefaultData where
  SprintDurationSet : Int
  PomodoroDurationSet : Int
  RestDurationSet : Int
  deriving DecidableEq, Repr

/-- How a call of `ParsePatternToSession` ends: it returns an optional value, or an
index into the submatches is out of range (a pattern with fewer groups). -/
inductive ParseResult where
  | returned (value : Option SessionDefaultData)
  | indexOutOfRange
  deriving DecidableEq, Repr

/-- `ParsePatternToSession` of `parsing.go`; a nil `r` is `none`. -/
def ParsePatternToSession (r : Option Regex) (text : String) : ParseResult :=
  let r1 : Regex :=
    match r with
    | none => BasicPattern
    | some r0 => r0
  match firstSubmatch r1 text.data with
  | none => .returned none
  | some v =>
    let d0 : SessionDefaultData := ⟨0, 0, 0⟩
    let d1 : SessionDefaultData := { d0 with SprintDurationSet := 1 }
    match v[MinutesGroup]? with
    | none => .indexOutOfRange
    | some minutes =>
      match Atoi minutes with
      | none => .returned none
      | some pomDuration =>
        let d2 : SessionDefaultData :=
          { d1 with PomodoroDurationSet := wrapInt (pomDuration * 60) }
        match v[CardinalityGroup]? with
        | none => .indexOutOfRange
        | some cardinality =>
          let d3 : SessionDefaultData :=
            match Atoi cardinality with
            | some sprintDuration =>
              { d2 with SprintDurationSet := sprintDuration, RestDurationSet := 5 * 60 }
            | none => d2
          match v[RestGroup]? with
          | none => .indexOutOfRange
          | some rest =>
            let d4 : SessionDefaultData :=
              match Atoi rest with
              | some restDuration =>
                { d3 with RestDurationSet := wrapInt (restDuration * 60) }
              | none => d3
            .returned (some d4)

/-- `DefaultSession` of `model.go`, with no deadline stamped and no queue. -/
def DefaultSession : Session :=
  { SprintDurationSet := 4
    PomodoroDurationSet := 25 * 60
    RestDurationSet := 25 * 60
    Data :=
      { SprintDuration := 4
        PomodoroDuration := 25 * 60
        RestDuration := 25 * 60
        IsRest := false
        IsPaused := false
        IsCancel := false
        IsFinished := false }
    EndNextSprintTimestamp := none
    EndNextRestTimestamp := none
    ActionsChannel := none }

/-- A positive decimal number written without a leading zero: a digit from 1 to 9
followed by digits. -/
def isNumeral (ds : List Char) : Prop :=
  ∃ d tl, ds = d :: tl ∧ inRange '1' '9' d = true ∧ ∀ c ∈ tl, inRange '0' '9' c = true

/-- The text has a place where `BasicPattern` can start to match: a slash followed by
a digit from 1 to 9. -/
def hasCommand (text : List Char) : Prop :=
  ∃ before d after, text = before ++ '/' :: d :: after ∧ inRange '1' '9' d = true

/-! ## Runs of several sprints -/

/-- The clock readings of one work interval that is followed by a rest: the readings
while the work deadline has not passed, the reading that finds it passed, the reading
at which `RestStarted` is handled, the readings while the rest deadline has not
passed, the reading that finds it passed and the reading at which `RestFinished` is
handled. -/
structure Round where
  workIdle : List Int
  workPassed : Int
  restHandled : Int
  restIdle : List Int
  restPassed : Int
  workHandled : Int
  deriving Repr

/-- The clock readings of a round, in the order the loop takes them. -/
def Round.clock (x : Round) : List Int :=
  x.workIdle ++ x.workPassed :: x.restHandled :: (x.restIdle ++ [x.restPassed, x.workHandled])

/-- The clock readings of successive rounds. -/
def roundsClock : List Round → List Int
  | [] => []
  | x :: xs => x.clock ++ roundsClock xs

/-- The readings of the rounds fit the deadlines: with work deadline `d` at the start,
work time `p` and rest time `r`, the idle readings of each interval are not after its
deadline and the passing reading is after it; the rest deadline is stamped `r` after
the handling of `RestStarted`, the next work deadline `p` after the handling of
`RestFinished`. -/
def validRounds (p r : Int) : Int → List Round → Prop
  | _, [] => True
  | d, x :: xs =>
    (∀ t ∈ x.workIdle, t ≤ d) ∧ d < x.workPassed ∧
    (∀ t ∈ x.restIdle, t ≤ x.restHandled + r) ∧ x.restHandled + r < x.restPassed ∧
    validRounds p r (x.workHandled + p) xs

/-- The work deadline in force after the rounds. -/
def lastDeadline (p : Int) : Int → List Round → Int
  | d, [] => d
  | _, x :: xs => lastDeadline p (x.workHandled + p) xs

/-- The handler calls of `n` rest phases. -/
def restCalls : Nat → List Callback
  | 0 => []
  | n + 1 => Callback.restBegin :: Callback.restFinished :: restCalls n

/-! ## Lemmas on the loop -/

/-- Away from the smallest `int` the decrement is one less. -/
theorem decrementInt_of_ne (x : Int) (h : x ≠ minInt) : decrementInt x = x - 1 := by
  unfold decrementInt
  rw [if_neg h]

/-- Above the smallest `int` the decrement is one less. -/
theorem decrementInt_of_gt (x : Int) (h : minInt < x) : decrementInt x = x - 1 :=
  decrementInt_of_ne x (by omega)

/-- At the smallest `int` the decrement gives the largest, which is not negative. -/
theorem decrementInt_minInt : decrementInt minInt = maxInt ∧ ¬ maxInt < 0 := by
  unfold decrementInt maxInt
  simp

/-- On the `int` range the decrement is the subtraction of one wrapped to 64 bits. -/
theorem decrementInt_eq_wrapInt (x : Int) (h1 : minInt ≤ x) (h2 : x ≤ maxInt) :
    decrementInt x = wrapInt (x - 1) := by
  unfold decrementInt wrapInt
  unfold minInt at *
  unfold maxInt at *
  split_ifs with h
  · subst h
    omega
  · omega

/-- The decrement of zero. -/
theorem decrementInt_zero : decrementInt 0 = -1 := by decide

/-- The smallest `int` lies below zero. -/
theorem minInt_neg : minInt < 0 := by
  unfold minInt
  omega

theorem loopIteration_openQueue (now : Int) (st : LoopState) :
    loopIteration now (openQueue st) = loopIteration now st := by
  cases h : st.session.ActionsChannel <;>
    simp [loopIteration, openQueue, ReadingActionChannel, h]

theorem SpawnSessionTimer_openQueue (now : Int) (clock : List Int) (st : LoopState) :
    SpawnSessionTimer (now :: clock) (openQueue st) = SpawnSessionTimer (now :: clock) st := by
  simp [SpawnSessionTimer, loopIteration_openQueue]

theorem SpawnSessionTimer_openQueue_of_ne_nil (clock : List Int) (st : LoopState)
    (h : clock ≠ []) :
    SpawnSessionTimer clock (openQueue st) = SpawnSessionTimer clock st := by
  cases clock with
  | nil => exact absurd rfl h
  | cons now clock => exact SpawnSessionTimer_openQueue now clock st

theorem openQueue_channel (st : LoopState) (h : emptyQueue st.session) :
    (openQueue st).session.ActionsChannel = some ⟨[], false⟩ := by
  rcases h with h | h <;> simp [openQueue, ReadingActionChannel, h]

/-- While the work deadline has not passed and nothing is queued, the loop idles. -/
theorem idle_work (st : LoopState) (d : Int) (w clock : List Int)
    (hch : st.session.ActionsChannel = some ⟨[], false⟩)
    (hrest : st.session.Data.IsRest = false)
    (hd : st.session.EndNextSprintTimestamp = some d)
    (hw : ∀ t ∈ w, t ≤ d) :
    SpawnSessionTimer (w ++ clock) st = SpawnSessionTimer clock st := by
  induction w with
  | nil => rfl
  | cons t w ih =>
    have ht : ¬ t > d := by
      have := hw t (List.mem_cons_self t w)
      omega
    have hstep : loopIteration t st = .continueLoop st := by
      simp [loopIteration, ReadingActionChannel, hch, deadlineCheck, hrest, hd, ht]
    simp only [List.cons_append, SpawnSessionTimer, hstep]
    exact ih (fun x hx => hw x (List.mem_cons_of_mem t hx))

/-- While the rest deadline has not passed and nothing is queued, the loop idles. -/
theorem idle_rest (st : LoopState) (d : Int) (w clock : List Int)
    (hch : st.session.ActionsChannel = some ⟨[], false⟩)
    (hrest : st.session.Data.IsRest = true)
    (hd : st.session.EndNextRestTimestamp = some d)
    (hw : ∀ t ∈ w, t ≤ d) :
    SpawnSessionTimer (w ++ clock) st = SpawnSessionTimer clock st := by
  induction w with
  | nil => rfl
  | cons t w ih =>
    have ht : ¬ t > d := by
      have := hw t (List.mem_cons_self t w)
      omega
    have hstep : loopIteration t st = .continueLoop st := by
      simp [loopIteration, ReadingActionChannel, hch, deadlineCheck, hrest, hd, ht]
    simp only [List.cons_append, SpawnSessionTimer, hstep]
    exact ih (fun x hx => hw x (List.mem_cons_of_mem t hx))

/-- A passed work deadline with sprints left: the next two iterations dispatch and
handle `RestStarted`. -/
theorem work_deadline_rest (st : LoopState) (d t1 t2 : Int) (clock : List Int)
    (hch : st.session.ActionsChannel = some ⟨[], false⟩)
    (hrest : st.session.Data.IsRest = false)
    (hd : st.session.EndNextSprintTimestamp = some d)
    (ht : d < t1)
    (hc : 1 ≤ st.session.Data.SprintDuration) :
    SpawnSessionTimer (t1 :: t2 :: clock) st = SpawnSessionTimer clock (restBegun t2 st) := by
  have hdec : decrementInt st.session.Data.SprintDuration
      = st.session.Data.SprintDuration - 1 :=
    decrementInt_of_gt _ (by have := minInt_neg; omega)
  have hneg : ¬ st.session.Data.SprintDuration - 1 < 0 := by omega
  simp [SpawnSessionTimer, loopIteration, ReadingActionChannel, hch, deadlineCheck, hrest, hd,
    ht, hdec, hneg, dispatch, sendAction, WritingActionChannel, handleAction, actRestStarted,
    restBegun, AssignTimestamps]

/-- A passed rest deadline: the next two iterations dispatch and handle
`RestFinished`. -/
theorem rest_deadline_work (st : LoopState) (d t1 t2 : Int) (clock : List Int)
    (hch : st.session.ActionsChannel = some ⟨[], false⟩)
    (hrest : st.session.Data.IsRest = true)
    (hd : st.session.EndNextRestTimestamp = some d)
    (ht : d < t1) :
    SpawnSessionTimer (t1 :: t2 :: clock) st = SpawnSessionTimer clock (workBegun t2 st) := by
  simp [SpawnSessionTimer, loopIteration, ReadingActionChannel, hch, deadlineCheck, hrest, hd,
    ht, dispatch, sendAction, WritingActionChannel, handleAction, actRestFinished,
    workBegun, AssignTimestamps]

/-- A passed work deadline with no sprint left, the counter not being the smallest
`int`: the next two iterations dispatch and handle `Finished`, and the loop exits. -/
theorem work_deadline_finish (st : LoopState) (d t1 t2 : Int) (clock : List Int)
    (hch : st.session.ActionsChannel = some ⟨[], false⟩)
    (hrest : st.session.Data.IsRest = false)
    (hd : st.session.EndNextSprintTimestamp = some d)
    (ht : d < t1)
    (hc : st.session.Data.SprintDuration ≤ 0)
    (hmin : st.session.Data.SprintDuration ≠ minInt) :
    SpawnSessionTimer (t1 :: t2 :: clock) st = .exited (finishedState st) := by
  have hdec : decrementInt st.session.Data.SprintDuration
      = st.session.Data.SprintDuration - 1 :=
    decrementInt_of_ne _ hmin
  have hneg : st.session.Data.SprintDuration - 1 < 0 := by omega
  simp [SpawnSessionTimer, loopIteration, ReadingActionChannel, hch, deadlineCheck, hrest, hd,
    ht, hdec, hneg, dispatch, sendAction, WritingActionChannel, handleAction, actFinished,
    finishedState, deferredClose, closeChan]

/-- The dispatch at a passed work deadline, on its own. -/
theorem work_deadline_dispatch (st : LoopState) (d t1 : Int)
    (hch : st.session.ActionsChannel = some ⟨[], false⟩)
    (hrest : st.session.Data.IsRest = false)
    (hd : st.session.EndNextSprintTimestamp = some d)
    (ht : d < t1) :
    loopIteration t1 st = .continueLoop (deadlineDispatched st) := by
  by_cases hneg : decrementInt st.session.Data.SprintDuration < 0 <;>
    simp [loopIteration, ReadingActionChannel, hch, deadlineCheck, hrest, hd,
      ht, hneg, dispatch, sendAction, WritingActionChannel, deadlineDispatched]

/-! ## The control operations -/

/-- C1, counterexample: on the non-zero session whose sprint counter holds the smallest
`int`, -9223372036854775808, `StartSession` returns no error and leaves the counter at
9223372036854775807, which is not the previous counter minus one. -/
theorem StartSession_wraps_at_smallest_int :
    isZero (some minCounterSession) = false ∧
    minCounterSession.Data.SprintDuration = -9223372036854775808 ∧
    ∃ s1, (StartSession 0 (some minCounterSession)).session = some s1 ∧
      (StartSession 0 (some minCounterSession)).err = none ∧
      s1.Data.SprintDuration = 9223372036854775807 ∧
      s1.Data.SprintDuration ≠ minCounterSession.Data.SprintDuration - 1 :=
  ⟨by decide, rfl, _, rfl, rfl, by decide, by decide⟩

/-- C1, amended: `StartSession` returns an error exactly when the session is zero, and
then leaves the session as it was and spawns no loop; on every non-zero session it
returns no error, clears the paused and canceled flags, applies the 64-bit decrement
to the sprint counter, which is the previous counter minus exactly one whenever the
previous counter is above the smallest `int`, and keeps the three configured
parameters. -/
theorem StartSession_contract (now : Int) (cur : Option Session) :
    ((StartSession now cur).err ≠ none ↔ isZero cur = true) ∧
    (if isZero cur = true then
      (StartSession now cur).session = cur ∧ (StartSession now cur).spawned = false
    else
      ∃ s s1, cur = some s ∧ (StartSession now cur).session = some s1 ∧
        (StartSession now cur).err = none ∧
        s1.Data.IsPaused = false ∧ s1.Data.IsCancel = false ∧
        s1.Data.SprintDuration = decrementInt s.Data.SprintDuration ∧
        (minInt < s.Data.SprintDuration →
          s1.Data.SprintDuration = s.Data.SprintDuration - 1) ∧
        s1.SprintDurationSet = s.SprintDurationSet ∧
        s1.PomodoroDurationSet = s.PomodoroDurationSet ∧
        s1.RestDurationSet = s.RestDurationSet) := by
  cases cur with
  | none => simp [StartSession, isZero]
  | some s =>
    by_cases hz : isZero (some s) = true
    · simp [StartSession, hz]
    · have hres : StartSession now (some s) =
          ⟨none, some (AssignTimestamps now
            { s with Data := { s.Data with
                IsPaused := false, IsCancel := false,
                SprintDuration := decrementInt s.Data.SprintDuration } }), true⟩ := by
        simp [StartSession, hz]
      refine ⟨by simp [hres, hz], ?_⟩
      rw [if_neg hz, hres]
      exact ⟨s, _, rfl, rfl, rfl, rfl, rfl, rfl,
        fun hmin => decrementInt_of_gt _ hmin, rfl, rfl, rfl⟩

/-- C2: `ResumeSession` returns an error if and only if the session is zero, or is not
stopped, or is canceled. With an error the session is left as it was and no loop is
spawned; without one the only progress field changed is the paused flag (now false),
the configured parameters and the queue are kept and both deadlines are re-stamped
from the cached remaining durations. -/
theorem ResumeSession_contract (now : Int) (cur : Option Session) :
    ((ResumeSession now cur).err ≠ none ↔
      (isZero cur = true ∨
        ∃ s, cur = some s ∧ (isStopped s = false ∨ isCanceled s = true))) ∧
    (if (ResumeSession now cur).err ≠ none then
      (ResumeSession now cur).session = cur ∧ (ResumeSession now cur).spawned = false
    else
      ∃ s s1, cur = some s ∧ (ResumeSession now cur).session = some s1 ∧
        (ResumeSession now cur).spawned = true ∧
        s1.Data = { s.Data with IsPaused := false } ∧
        s1.SprintDurationSet = s.SprintDurationSet ∧
        s1.PomodoroDurationSet = s.PomodoroDurationSet ∧
        s1.RestDurationSet = s.RestDurationSet ∧
        s1.ActionsChannel = s.ActionsChannel ∧
        s1.EndNextSprintTimestamp = some (now + s.Data.PomodoroDuration) ∧
        s1.EndNextRestTimestamp = some (now + s.Data.RestDuration)) := by
  cases cur with
  | none => simp [ResumeSession, isZero]
  | some s =>
    by_cases hz : isZero (some s) = true
    · simp [ResumeSession, hz]
    · by_cases hs : isStopped s = true
      · by_cases hc : isCanceled s = true
        · simp [ResumeSession, hz, hs, hc]
        · simp [ResumeSession, hz, hs, hc, AssignTimestamps]
      · simp [ResumeSession, hz, hs]

/-- On a session whose canceled flag is set `ResumeSession` returns an error and
changes nothing. -/
theorem ResumeSession_of_canceled (now : Int) (s : Session) (h : s.Data.IsCancel = true) :
    (ResumeSession now (some s)).err ≠ none ∧
    (ResumeSession now (some s)).session = some s ∧
    (ResumeSession now (some s)).spawned = false := by
  by_cases hz : isZero (some s) = true
  · simp [ResumeSession, hz]
  · simp [ResumeSession, hz, isStopped, isCanceled, h]

/-- The synchronous cancel of a paused session (`ActionCancelSprint`) calls the end
handler with kind canceled and leaves the session paused and canceled, so that both
`PauseSession` and `ResumeSession` return an error afterwards. -/
theorem pause_and_resume_fail_after_cancel_while_paused (now : Int) (st : LoopState)
    (hp : IsPaused st.session = true) :
    ∃ st1, ActionCancelSprint st = .done none st1 ∧
      st1.calls = st.calls ++ [Callback.endSession PomodoroEndKind.PomodoroCanceled] ∧
      st1.session.Data.IsCancel = true ∧
      PauseSession st1.session = .returned (some SessionError.alreadyPaused) st1.session ∧
      (ResumeSession now (some st1.session)).err ≠ none := by
  simp only [IsPaused] at hp
  refine ⟨_, by simp [ActionCancelSprint, IsPaused, hp]; rfl, rfl, rfl, ?_, ?_⟩
  · simp [PauseSession, Cancel, hp]
  · exact (ResumeSession_of_canceled now (Cancel st.session) rfl).1

/-- C3: `PauseSession` does not treat cancel as terminal. On every session that is
canceled and not paused (as the loop leaves it after handling a canceled action) and
whose queue is not closed, `CancelSession` returns its "already canceled" error and
`ResumeSession` returns an error and changes nothing, but `PauseSession` returns no
error: it only tests the paused flag and enqueues a paused action. -/
theorem PauseSession_accepts_canceled (now : Int) (s : Session)
    (hcancel : s.Data.IsCancel = true)
    (hpaused : s.Data.IsPaused = false)
    (hq : ∀ c, s.ActionsChannel = some c → c.closed = false) :
    CancelSession s = .returned (some SessionError.alreadyCanceled) s ∧
    ((ResumeSession now (some s)).err ≠ none ∧
      (ResumeSession now (some s)).session = some s ∧
      (ResumeSession now (some s)).spawned = false) ∧
    PauseSession s = .returned none
      { s with
        ActionsChannel := some ⟨(WritingActionChannel s).1.buf ++ [actPaused], false⟩ } := by
  refine ⟨by simp [CancelSession, isCanceled, hcancel],
    ResumeSession_of_canceled now s hcancel, ?_⟩
  cases hch : s.ActionsChannel with
  | none => simp [PauseSession, hpaused, sendAction, WritingActionChannel, hch]
  | some c =>
    have hc := hq c hch
    simp [PauseSession, hpaused, sendAction, WritingActionChannel, hch, hc]

/-- C3, witness: a session of 4 sprints is started, a cancel is requested and the loop
handles it, which leaves `canceledByLoop`; on that session `CancelSession` and
`ResumeSession` return an error and `PauseSession` returns nil with a paused action
in a new queue. -/
theorem PauseSession_accepts_canceled_witness :
    (∃ s0 s1 : Session,
      (StartSession 0 (some (newSession 4 1500 300))).session = some s0 ∧
      CancelSession s0 = .returned none s1 ∧
      SpawnSessionTimer [1] ⟨s1, []⟩ =
        .exited ⟨canceledByLoop, [Callback.endSession PomodoroEndKind.PomodoroCanceled]⟩) ∧
    (CancelSession canceledByLoop
        = .returned (some SessionError.alreadyCanceled) canceledByLoop ∧
      ((ResumeSession 7 (some canceledByLoop)).err ≠ none ∧
        (ResumeSession 7 (some canceledByLoop)).session = some canceledByLoop ∧
        (ResumeSession 7 (some canceledByLoop)).spawned = false) ∧
      PauseSession canceledByLoop = .returned none
        { canceledByLoop with ActionsChannel := some ⟨[actPaused], false⟩ }) :=
  ⟨⟨_, _, rfl, rfl, by decide⟩,
    PauseSession_accepts_canceled 7 canceledByLoop rfl rfl (by decide)⟩

/-- C4: `ResumeSession` accepts a finished session. On every non-zero session whose
loop handled the finished action (finished flag set, sprint counter negative, not
canceled, queue reference cleared, work phase) it returns no error and spawns a loop;
once the re-stamped work deadline has passed that loop decrements the counter again
(the counter not being the smallest `int`, where the decrement wraps) and calls the
end handler with kind finished a second time. -/
theorem ResumeSession_accepts_finished (now t1 t2 : Int) (s : Session)
    (hz : isZero (some s) = false)
    (hf : s.Data.IsFinished = true)
    (hneg : s.Data.SprintDuration < 0)
    (hc : s.Data.IsCancel = false)
    (hq : s.ActionsChannel = none)
    (hrest : s.Data.IsRest = false)
    (ht : now + s.Data.PomodoroDuration < t1) :
    (ResumeSession now (some s)).err = none ∧
    (ResumeSession now (some s)).spawned = true ∧
    (s.Data.SprintDuration ≠ minInt →
      ∃ st1 fin, spawnedState (ResumeSession now (some s)) = some st1 ∧
        st1.session.Data.IsFinished = true ∧
        SpawnSessionTimer [t1, t2] st1 = .exited fin ∧
        fin.calls = [Callback.endSession PomodoroEndKind.PomodoroFinished] ∧
        fin.session.Data.SprintDuration = s.Data.SprintDuration - 1) := by
  have hstop : isStopped s = true := by simp [isStopped, hneg]
  have hres : ResumeSession now (some s) =
      ⟨none, some (AssignTimestamps now { s with Data := { s.Data with IsPaused := false } }),
        true⟩ := by
    simp [ResumeSession, hz, hstop, isCanceled, hc]
  refine ⟨by rw [hres], by rw [hres], ?_⟩
  intro hmin
  have hrun := work_deadline_finish
    (openQueue ⟨AssignTimestamps now { s with Data := { s.Data with IsPaused := false } }, []⟩)
    (now + s.Data.PomodoroDuration) t1 t2 []
    (by simp [openQueue, ReadingActionChannel, AssignTimestamps, hq])
    (by simp [openQueue, ReadingActionChannel, AssignTimestamps, hq, hrest])
    (by simp [openQueue, ReadingActionChannel, AssignTimestamps, hq])
    ht
    (by simp [openQueue, ReadingActionChannel, AssignTimestamps, hq]; omega)
    (by simpa [openQueue, ReadingActionChannel, AssignTimestamps, hq] using hmin)
  rw [SpawnSessionTimer_openQueue] at hrun
  refine ⟨_, _, by rw [hres]; rfl, ?_, hrun, ?_, ?_⟩
  · simpa [AssignTimestamps] using hf
  · simp [finishedState, openQueue]
  · simp [finishedState, openQueue, ReadingActionChannel, AssignTimestamps, hq]

/-- C4, witness: the finished session of scenario A is resumed at time 4000 and
finishes a second time once 5500 has passed. -/
theorem ResumeSession_accepts_finished_witness :
    (ResumeSession 4000 (some scenarioAFinished)).err = none ∧
    (ResumeSession 4000 (some scenarioAFinished)).spawned = true ∧
    ∃ st1 fin, spawnedState (ResumeSession 4000 (some scenarioAFinished)) = some st1 ∧
      st1.session.Data.IsFinished = true ∧
      SpawnSessionTimer [5501, 5501] st1 = .exited fin ∧
      fin.calls = [Callback.endSession PomodoroEndKind.PomodoroFinished] ∧
      fin.session.Data.SprintDuration = scenarioAFinished.Data.SprintDuration - 1 :=
  have h := ResumeSession_accepts_finished 4000 5501 5501 scenarioAFinished
    rfl rfl (by decide) rfl rfl rfl (by decide)
  ⟨h.1, h.2.1, h.2.2 (by decide)⟩

/-! ## The loop's deadline check and its scenarios -/

/-- C5, counterexample: a session of one sprint has its counter at exactly 0 after
`StartSession`; at the first passed work deadline the loop queues `Finished`, not
`RestStarted`, and the run ends with the end handler as the only handler call: no
rest phase follows the counter reaching 0. -/
theorem one_sprint_reaches_zero_without_rest :
    ∃ st0 : LoopState,
      spawnedState (StartSession 0 (some (newSession 1 1500 300))) = some st0 ∧
      st0.session.Data.SprintDuration = 0 ∧
      (SpawnSessionTimer [1501] st0).state.session.ActionsChannel
        = some ⟨[actFinished], false⟩ ∧
      (SpawnSessionTimer [1501, 1501] st0).state.calls
        = [Callback.endSession PomodoroEndKind.PomodoroFinished] ∧
      (SpawnSessionTimer [1501, 1501] st0).state.session.Data.SprintDuration = -1 :=
  ⟨_, rfl, by decide, by decide, by decide, by decide⟩

/-- C5, amended: at a passed work deadline the loop decrements the counter (the 64-bit
decrement of `SprintDuration -= 1`) and queues exactly one action, `Finished` when the
counter became negative and `RestStarted` otherwise. When the counter became negative the loop exits with the end handler
(kind finished) as its only further call. When this decrement brought the counter to
exactly 0, every run without external action whose deadlines pass has exactly one
rest phase (one rest-begin and one rest-finished call) before the end handler is
called with kind finished, at counter -1. -/
theorem rest_follows_nonnegative_counter_only
    (st : LoopState) (d t1 t2 t3 t4 t5 t6 : Int) (w2 w3 : List Int)
    (hq : emptyQueue st.session)
    (hrest : st.session.Data.IsRest = false)
    (hd : st.session.EndNextSprintTimestamp = some d)
    (h1 : d < t1)
    (hw2 : ∀ t ∈ w2, t ≤ t2 + st.session.RestDurationSet)
    (h3 : t2 + st.session.RestDurationSet < t3)
    (hw3 : ∀ t ∈ w3, t ≤ t4 + st.session.PomodoroDurationSet)
    (h5 : t4 + st.session.PomodoroDurationSet < t5) :
    (loopIteration t1 st).state.session.Data.SprintDuration
      = decrementInt st.session.Data.SprintDuration ∧
    (loopIteration t1 st).state.session.ActionsChannel
      = some ⟨[if decrementInt st.session.Data.SprintDuration < 0 then actFinished
          else actRestStarted], false⟩ ∧
    (decrementInt st.session.Data.SprintDuration < 0 →
      ∃ fin, SpawnSessionTimer [t1, t2] st = .exited fin ∧
        fin.calls = st.calls ++ [Callback.endSession PomodoroEndKind.PomodoroFinished] ∧
        fin.session.Data.SprintDuration = decrementInt st.session.Data.SprintDuration) ∧
    (st.session.Data.SprintDuration - 1 = 0 →
      ∃ fin, SpawnSessionTimer (t1 :: t2 :: (w2 ++ t3 :: t4 :: (w3 ++ [t5, t6]))) st
          = .exited fin ∧
        fin.calls = st.calls ++ [Callback.restBegin, Callback.restFinished,
          Callback.endSession PomodoroEndKind.PomodoroFinished] ∧
        fin.session.Data.SprintDuration = -1 ∧
        fin.session.Data.IsFinished = true) := by
  have hch := openQueue_channel st hq
  have hstep := work_deadline_dispatch (openQueue st) d t1 hch
    (by rcases hq with h | h <;> simpa [openQueue, ReadingActionChannel, h] using hrest)
    (by rcases hq with h | h <;> simpa [openQueue, ReadingActionChannel, h] using hd) h1
  rw [loopIteration_openQueue] at hstep
  have hdata : (openQueue st).session.Data = st.session.Data := by
    rcases hq with h | h <;> simp [openQueue, ReadingActionChannel, h]
  have hcalls : (openQueue st).calls = st.calls := rfl
  have hPS : (openQueue st).session.PomodoroDurationSet = st.session.PomodoroDurationSet := by
    rcases hq with h | h <;> simp [openQueue, ReadingActionChannel, h]
  have hRS : (openQueue st).session.RestDurationSet = st.session.RestDurationSet := by
    rcases hq with h | h <;> simp [openQueue, ReadingActionChannel, h]
  have hd1 : (openQueue st).session.EndNextSprintTimestamp = some d := by
    rcases hq with h | h <;> simpa [openQueue, ReadingActionChannel, h] using hd
  have hr1 : (openQueue st).session.Data.IsRest = false := by rw [hdata]; exact hrest
  refine ⟨?_, ?_, ?_, ?_⟩
  · rw [hstep]; simp [Flow.state, deadlineDispatched, hdata]
  · rw [hstep]; simp [Flow.state, deadlineDispatched, hdata]
  · intro hneg
    have hne : st.session.Data.SprintDuration ≠ minInt := by
      intro heq
      rw [heq, decrementInt_minInt.1] at hneg
      exact decrementInt_minInt.2 hneg
    rw [decrementInt_of_ne _ hne] at hneg
    have hrun := work_deadline_finish (openQueue st) d t1 t2 [] hch hr1 hd1 h1
      (by rw [hdata]; omega) (by rw [hdata]; exact hne)
    rw [SpawnSessionTimer_openQueue] at hrun
    exact ⟨_, hrun, by simp [finishedState, hcalls],
      by simp [finishedState, hdata, decrementInt_of_ne _ hne]⟩
  · intro hzero
    have hrunA := work_deadline_rest (openQueue st) d t1 t2
      (w2 ++ t3 :: t4 :: (w3 ++ [t5, t6])) hch hr1 hd1 h1 (by rw [hdata]; omega)
    rw [SpawnSessionTimer_openQueue] at hrunA
    have hrunB := idle_rest (restBegun t2 (openQueue st)) (t2 + st.session.RestDurationSet)
      w2 (t3 :: t4 :: (w3 ++ [t5, t6]))
      (by simp [restBegun, AssignTimestamps, hch]) (by simp [restBegun, AssignTimestamps])
      (by simp [restBegun, AssignTimestamps, hRS]) hw2
    have hrunC := rest_deadline_work (restBegun t2 (openQueue st))
      (t2 + st.session.RestDurationSet) t3 t4 (w3 ++ [t5, t6])
      (by simp [restBegun, AssignTimestamps, hch]) (by simp [restBegun, AssignTimestamps])
      (by simp [restBegun, AssignTimestamps, hRS]) h3
    have hrunD := idle_work (workBegun t4 (restBegun t2 (openQueue st)))
      (t4 + st.session.PomodoroDurationSet) w3 [t5, t6]
      (by simp [workBegun, restBegun, AssignTimestamps, hch])
      (by simp [workBegun, restBegun, AssignTimestamps])
      (by simp [workBegun, restBegun, AssignTimestamps, hPS]) hw3
    have hrunE := work_deadline_finish (workBegun t4 (restBegun t2 (openQueue st)))
      (t4 + st.session.PomodoroDurationSet) t5 t6 []
      (by simp [workBegun, restBegun, AssignTimestamps, hch])
      (by simp [workBegun, restBegun, AssignTimestamps])
      (by simp [workBegun, restBegun, AssignTimestamps, hPS]) h5
      (by simp [workBegun, restBegun, AssignTimestamps, hdata]; omega)
      (by
        have := minInt_neg
        simp [workBegun, restBegun, AssignTimestamps, hdata]
        omega)
    refine ⟨_, by rw [hrunA, hrunB, hrunC, hrunD, hrunE], ?_, ?_, ?_⟩
    · simp [finishedState, workBegun, restBegun, hcalls]
    · simp [finishedState, workBegun, restBegun, AssignTimestamps, hdata]; omega
    · simp [finishedState]

/-- C5, witness: the amended statement at the started session of scenario A (counter
1, work deadline 1500), with idle readings during the rest and the second work
interval. -/
theorem rest_follows_nonnegative_counter_only_witness :
    (loopIteration 1501
        ⟨AssignTimestamps 0
          { newSession 2 1500 300 with
            Data := { (newSession 2 1500 300).Data with SprintDuration := 1 } }, []⟩
      ).state.session.Data.SprintDuration = 0 ∧
    ∃ fin,
      SpawnSessionTimer (1501 :: 1502 :: ([1600, 1700] ++ 1803 :: 1804 :: ([2000] ++ [3305, 3306])))
          ⟨AssignTimestamps 0
            { newSession 2 1500 300 with
              Data := { (newSession 2 1500 300).Data with SprintDuration := 1 } }, []⟩
        = .exited fin ∧
      fin.calls = [Callback.restBegin, Callback.restFinished,
        Callback.endSession PomodoroEndKind.PomodoroFinished] ∧
      fin.session.Data.SprintDuration = -1 :=
  have h := rest_follows_nonnegative_counter_only
    ⟨AssignTimestamps 0
      { newSession 2 1500 300 with
        Data := { (newSession 2 1500 300).Data with SprintDuration := 1 } }, []⟩
    1500 1501 1502 1803 1804 3305 3306 [1600, 1700] [2000]
    (Or.inl rfl) rfl rfl (by decide) (by decide) (by decide) (by decide) (by decide)
  ⟨h.1, (h.2.2.2 (by decide)).imp fun _ hf => ⟨hf.1, hf.2.1, hf.2.2.1⟩⟩

/-- C6, counterexample: in scenario A, run at the clock readings 1501, 1501, 1802,
1802, 3303, 3303, the second passed work deadline (fifth reading) leaves the session
in the work phase with `Finished` as the only queued action, and the whole run makes
one rest-begin call, so no rest phase follows the second work deadline. -/
theorem scenarioA_no_rest_after_second_work_deadline :
    startAndRun 0 (newSession 2 1500 300) [1501, 1501, 1802, 1802, 3303]
      = some (.running
          ⟨{ scenarioAFinished with
              Data := { scenarioAFinished.Data with IsFinished := false }
              ActionsChannel := some ⟨[actFinished], false⟩ },
            [Callback.restBegin, Callback.restFinished]⟩) ∧
    startAndRun 0 (newSession 2 1500 300) [1501, 1501, 1802, 1802, 3303, 3303]
      = some (.exited
          ⟨scenarioAFinished,
            [Callback.restBegin, Callback.restFinished,
              Callback.endSession PomodoroEndKind.PomodoroFinished]⟩) ∧
    List.count Callback.restBegin
      [Callback.restBegin, Callback.restFinished,
        Callback.endSession PomodoroEndKind.PomodoroFinished] = 1 := by
  refine ⟨by decide, by decide, by decide⟩

/-- C6, amended: scenario A (2 sprints of 1500 s, rests of 300 s) started at `t0` and
run with no external action. The first passed work deadline moves the loop to the
rest phase with one rest-begin call and the counter at 0; the passed rest deadline
moves it back to the work phase with the counter still 0; the second passed work
deadline brings the counter to -1 and queues `Finished` with no further rest phase;
then the end handler is called with kind finished, the counter being -1, and the
loop exits having made exactly one rest-begin call. -/
theorem scenarioA_run (t0 t1 t2 t3 t4 t5 t6 : Int) (w1 w2 w3 : List Int)
    (hw1 : ∀ t ∈ w1, t ≤ t0 + 1500) (h1 : t0 + 1500 < t1)
    (hw2 : ∀ t ∈ w2, t ≤ t2 + 300) (h3 : t2 + 300 < t3)
    (hw3 : ∀ t ∈ w3, t ≤ t4 + 1500) (h5 : t4 + 1500 < t5) :
    (∃ a, startAndRun t0 (newSession 2 1500 300) (w1 ++ [t1, t2]) = some (.running a) ∧
      a.session.Data.IsRest = true ∧ a.session.Data.SprintDuration = 0 ∧
      a.calls = [Callback.restBegin]) ∧
    (∃ b, startAndRun t0 (newSession 2 1500 300) (w1 ++ t1 :: t2 :: (w2 ++ [t3, t4]))
        = some (.running b) ∧
      b.session.Data.IsRest = false ∧ b.session.Data.SprintDuration = 0 ∧
      b.calls = [Callback.restBegin, Callback.restFinished]) ∧
    (∃ c, startAndRun t0 (newSession 2 1500 300)
          (w1 ++ t1 :: t2 :: (w2 ++ t3 :: t4 :: (w3 ++ [t5])))
        = some (.running c) ∧
      c.session.Data.IsRest = false ∧ c.session.Data.SprintDuration = -1 ∧
      c.session.ActionsChannel = some ⟨[actFinished], false⟩ ∧
      c.calls = [Callback.restBegin, Callback.restFinished]) ∧
    (∃ e, startAndRun t0 (newSession 2 1500 300)
          (w1 ++ t1 :: t2 :: (w2 ++ t3 :: t4 :: (w3 ++ [t5, t6])))
        = some (.exited e) ∧
      e.session.Data.SprintDuration = -1 ∧ e.session.Data.IsFinished = true ∧
      e.calls = [Callback.restBegin, Callback.restFinished,
        Callback.endSession PomodoroEndKind.PomodoroFinished] ∧
      List.count Callback.restBegin e.calls = 1) := by
  obtain ⟨st0, hst0⟩ : ∃ st0 : LoopState, st0 =
      ⟨AssignTimestamps t0
        { newSession 2 1500 300 with
          Data := { (newSession 2 1500 300).Data with
            IsPaused := false, IsCancel := false, SprintDuration := 2 - 1 } }, []⟩ := ⟨_, rfl⟩
  have hstart : ∀ clock, startAndRun t0 (newSession 2 1500 300) clock
      = some (SpawnSessionTimer clock st0) := by
    intro clock
    rw [hst0]
    rfl
  have hopen : ∀ clock, clock ≠ [] →
      SpawnSessionTimer clock st0 = SpawnSessionTimer clock (openQueue st0) :=
    fun clock h => (SpawnSessionTimer_openQueue_of_ne_nil clock st0 h).symm
  have hch : (openQueue st0).session.ActionsChannel = some ⟨[], false⟩ :=
    openQueue_channel st0 (Or.inl (by rw [hst0]; rfl))
  have hA0 : ∀ clock, SpawnSessionTimer (w1 ++ t1 :: t2 :: clock) st0
      = SpawnSessionTimer clock (restBegun t2 (openQueue st0)) := by
    intro clock
    rw [hopen _ (by simp), idle_work (openQueue st0) (t0 + 1500) w1 _ hch
      (by rw [hst0]; rfl) (by rw [hst0]; rfl) hw1]
    exact work_deadline_rest (openQueue st0) (t0 + 1500) t1 t2 clock hch
      (by rw [hst0]; rfl) (by rw [hst0]; rfl) h1
      (by rw [hst0]; simp [openQueue, ReadingActionChannel, AssignTimestamps, newSession, restBegun, workBegun, finishedState])
  have hB0 : ∀ clock, SpawnSessionTimer (w2 ++ t3 :: t4 :: clock) (restBegun t2 (openQueue st0))
      = SpawnSessionTimer clock (workBegun t4 (restBegun t2 (openQueue st0))) := by
    intro clock
    rw [idle_rest (restBegun t2 (openQueue st0)) (t2 + 300) w2 _
      (by simp [restBegun, AssignTimestamps, hch]) (by simp [restBegun, AssignTimestamps])
      (by rw [hst0]; rfl) hw2]
    exact rest_deadline_work (restBegun t2 (openQueue st0)) (t2 + 300) t3 t4 clock
      (by simp [restBegun, AssignTimestamps, hch]) (by simp [restBegun, AssignTimestamps])
      (by rw [hst0]; rfl) h3
  have hBch : (workBegun t4 (restBegun t2 (openQueue st0))).session.ActionsChannel
      = some ⟨[], false⟩ := by
    simp [workBegun, restBegun, AssignTimestamps, hch]
  have hBd : (workBegun t4 (restBegun t2 (openQueue st0))).session.EndNextSprintTimestamp
      = some (t4 + 1500) := by
    rw [hst0]; rfl
  have hBc : (workBegun t4 (restBegun t2 (openQueue st0))).session.Data.SprintDuration = 0 := by
    rw [hst0]
    simp [openQueue, ReadingActionChannel, AssignTimestamps, newSession, restBegun, workBegun, finishedState]
  refine ⟨?_, ?_, ?_, ?_⟩
  · refine ⟨restBegun t2 (openQueue st0), ?_, rfl, ?_, ?_⟩
    · rw [hstart, hA0]; rfl
    · rw [hst0]
      simp [openQueue, ReadingActionChannel, AssignTimestamps, newSession, restBegun, workBegun, finishedState]
    · rw [hst0]; rfl
  · refine ⟨workBegun t4 (restBegun t2 (openQueue st0)), ?_, rfl, hBc, ?_⟩
    · rw [hstart, hA0, hB0]; rfl
    · rw [hst0]; rfl
  · have hstep := work_deadline_dispatch (workBegun t4 (restBegun t2 (openQueue st0)))
      (t4 + 1500) t5 hBch rfl hBd h5
    refine ⟨deadlineDispatched (workBegun t4 (restBegun t2 (openQueue st0))),
      ?_, rfl, ?_, ?_, ?_⟩
    · rw [hstart, hA0, hB0, idle_work _ (t4 + 1500) w3 [t5] hBch rfl hBd hw3]
      simp only [SpawnSessionTimer, hstep]
    · simp [deadlineDispatched, hBc, decrementInt_zero]
    · simp [deadlineDispatched, hBc, decrementInt_zero]
    · rw [hst0]; rfl
  · refine ⟨finishedState (workBegun t4 (restBegun t2 (openQueue st0))), ?_, ?_, rfl, ?_, ?_⟩
    · rw [hstart, hA0, hB0, idle_work _ (t4 + 1500) w3 [t5, t6] hBch rfl hBd hw3,
        work_deadline_finish _ (t4 + 1500) t5 t6 [] hBch rfl hBd h5 (by rw [hBc])
          (by rw [hBc]; exact ne_of_gt minInt_neg)]
    · simp [finishedState, hBc]
    · rw [hst0]; rfl
    · rw [hst0]
      simp [finishedState, workBegun, restBegun, openQueue]

/-- C6, witness: the amended scenario at start time 0 with idle readings in each
interval. -/
theorem scenarioA_run_witness :
    ∃ e, startAndRun 0 (newSession 2 1500 300)
          ([10, 1500] ++ 1501 :: 1502 :: ([1600, 1802] ++ 1803 :: 1804 :: ([2000, 3304] ++ [3305, 3306])))
        = some (.exited e) ∧
      e.session.Data.SprintDuration = -1 ∧ e.session.Data.IsFinished = true ∧
      e.calls = [Callback.restBegin, Callback.restFinished,
        Callback.endSession PomodoroEndKind.PomodoroFinished] ∧
      List.count Callback.restBegin e.calls = 1 :=
  (scenarioA_run 0 1501 1502 1803 1804 3305 3306 [10, 1500] [1600, 1802] [2000, 3304]
    (by decide) (by decide) (by decide) (by decide) (by decide) (by decide)).2.2.2

/-! ## Pause, queue closure and the sprint counter -/

/-- C8: pause then resume keeps the progress. When the loop of a non-zero, not
canceled session with stamped deadlines `ds` (work) and `dr` (rest) handles a paused
action at time `t`, it caches the remaining durations `ds - t` and `dr - t`, calls the
pause handler and exits; `ResumeSession` at time `t2` then succeeds, keeps the phase
and the sprint counter, and stamps the deadlines `t2 + (ds - t)` and `t2 + (dr - t)`:
the remaining time cached at the pause, not the full configured duration. -/
theorem pause_then_resume_keeps_progress
    (t t2 ds dr : Int) (clock : List Int) (rest : List DispatchAction) (st : LoopState)
    (hz : isZero (some st.session) = false)
    (hc : st.session.Data.IsCancel = false)
    (hq : st.session.ActionsChannel = some ⟨actPaused :: rest, false⟩)
    (hds : st.session.EndNextSprintTimestamp = some ds)
    (hdr : st.session.EndNextRestTimestamp = some dr) :
    ∃ st1 s2, SpawnSessionTimer (t :: clock) st = .exited st1 ∧
      st1.calls = st.calls ++ [Callback.pauseSession] ∧
      st1.session.Data.IsPaused = true ∧
      st1.session.Data.PomodoroDuration = ds - t ∧
      st1.session.Data.RestDuration = dr - t ∧
      ResumeSession t2 (some st1.session) = ⟨none, some s2, true⟩ ∧
      s2.Data.IsPaused = false ∧
      s2.Data.IsRest = st.session.Data.IsRest ∧
      s2.Data.SprintDuration = st.session.Data.SprintDuration ∧
      s2.EndNextSprintTimestamp = some (t2 + (ds - t)) ∧
      s2.EndNextRestTimestamp = some (t2 + (dr - t)) ∧
      (if s2.Data.IsRest then s2.EndNextRestTimestamp else s2.EndNextSprintTimestamp)
        = some (t2 + ((if st.session.Data.IsRest then dr else ds) - t)) := by
  have hz1 : ¬ st.session.PomodoroDurationSet = 0 := by
    simpa [isZero] using hz
  refine ⟨pausedState t st,
    AssignTimestamps t2
      { (pausedState t st).session with
        Data := { (pausedState t st).session.Data with IsPaused := false } },
    ?_, rfl, rfl, ?_, ?_, ?_, rfl, rfl, rfl, ?_, ?_, ?_⟩
  · simp [SpawnSessionTimer, loopIteration, ReadingActionChannel, hq, handleAction, actPaused,
      deferredClose, closeChan, pausedState, GetRestDuration, GetPomodoroDuration]
  · simp [pausedState, GetPomodoroDuration, hds]
  · simp [pausedState, GetRestDuration, hdr]
  · simp [ResumeSession, isZero, hz1, isStopped, isCanceled, hc, pausedState]
  · simp [AssignTimestamps, pausedState, GetPomodoroDuration, hds]
  · simp [AssignTimestamps, pausedState, GetRestDuration, hdr]
  · cases hr : st.session.Data.IsRest <;>
      simp [AssignTimestamps, pausedState, GetPomodoroDuration, GetRestDuration, hds, hdr, hr]

/-- C8, witness: scenario A paused at time 600 in its first work interval (deadline
1500) and resumed at time 1000: the new work deadline is 1000 + 900. -/
theorem pause_then_resume_keeps_progress_witness :
    ∃ st1 s2,
      SpawnSessionTimer (600 :: [])
          ⟨{ AssignTimestamps 0 (newSession 2 1500 300) with
              ActionsChannel := some ⟨actPaused :: [], false⟩ }, []⟩ = .exited st1 ∧
      st1.session.Data.PomodoroDuration = 1500 - 600 ∧
      ResumeSession 1000 (some st1.session) = ⟨none, some s2, true⟩ ∧
      s2.Data.IsRest = false ∧
      s2.Data.SprintDuration = 2 ∧
      s2.EndNextSprintTimestamp = some (1000 + (1500 - 600)) :=
  (pause_then_resume_keeps_progress 600 1000 1500 300 [] []
    ⟨{ AssignTimestamps 0 (newSession 2 1500 300) with
        ActionsChannel := some ⟨actPaused :: [], false⟩ }, []⟩
    rfl rfl rfl rfl rfl).imp fun _ h => h.imp fun _ h =>
      ⟨h.1, h.2.2.2.1, h.2.2.2.2.2.1, h.2.2.2.2.2.2.2.1, h.2.2.2.2.2.2.2.2.1,
        h.2.2.2.2.2.2.2.2.2.1⟩

/-- Handling a received action leaves the sprint counter as it is. -/
theorem handleAction_counter (now : Int) (a : DispatchAction) (st : LoopState) :
    (handleAction now a st).state.session.Data.SprintDuration
      = st.session.Data.SprintDuration := by
  unfold handleAction
  split_ifs <;> simp [Flow.state, AssignTimestamps]

/-- A self-dispatch leaves the sprint counter of the session it is given. -/
theorem dispatch_counter (st : LoopState) (s : Session) (a : DispatchAction) :
    (dispatch st s a).state.session.Data.SprintDuration = s.Data.SprintDuration := by
  unfold dispatch sendAction WritingActionChannel
  cases h : s.ActionsChannel with
  | none => simp [Flow.state]
  | some c =>
    by_cases hc : c.closed = true <;> simp [Flow.state, hc]

/-- Away from the smallest `int` the decrement does not raise the value. -/
theorem decrementInt_le (x : Int) (h : x ≠ minInt) : decrementInt x ≤ x := by
  rw [decrementInt_of_ne x h]
  omega

/-- The decrement never goes more than one below. -/
theorem sub_one_le_decrementInt (x : Int) : x - 1 ≤ decrementInt x := by
  unfold decrementInt
  split_ifs with h
  · subst h
    unfold minInt maxInt
    omega
  · exact le_refl _

/-- The deadline check leaves the sprint counter or applies one decrement to it. -/
theorem deadlineCheck_counter (now : Int) (st : LoopState) :
    (deadlineCheck now st).state.session.Data.SprintDuration
        = st.session.Data.SprintDuration ∨
      (deadlineCheck now st).state.session.Data.SprintDuration
        = decrementInt st.session.Data.SprintDuration := by
  unfold deadlineCheck
  simp only []
  by_cases hr : st.session.Data.IsRest = true
  · simp only [hr]
    cases st.session.EndNextRestTimestamp with
    | none => exact Or.inl rfl
    | some d =>
      by_cases ht : now > d
      · simp only [ht]
        exact Or.inl (dispatch_counter _ _ _)
      · simp only [ht]
        exact Or.inl rfl
  · simp only [Bool.not_eq_true] at hr
    simp only [hr]
    cases st.session.EndNextSprintTimestamp with
    | none => exact Or.inl rfl
    | some d =>
      by_cases ht : now > d
      · by_cases hneg : decrementInt st.session.Data.SprintDuration < 0
        · simp only [ht, hneg]
          simp only [Bool.not_false, if_true]
          rw [dispatch_counter]
          exact Or.inr rfl
        · simp only [ht, hneg]
          simp only [Bool.not_false, if_true, if_false]
          rw [dispatch_counter]
          exact Or.inr rfl
      · simp only [ht]
        exact Or.inl rfl

/-- A pass through the loop body leaves the sprint counter or applies one decrement to
it. -/
theorem loopIteration_counter (now : Int) (st : LoopState) :
    (loopIteration now st).state.session.Data.SprintDuration
        = st.session.Data.SprintDuration ∨
      (loopIteration now st).state.session.Data.SprintDuration
        = decrementInt st.session.Data.SprintDuration := by
  unfold loopIteration ReadingActionChannel
  cases hq : st.session.ActionsChannel with
  | none =>
    simp only []
    exact deadlineCheck_counter now _
  | some c =>
    obtain ⟨buf, closed⟩ := c
    cases buf with
    | nil =>
      cases closed with
      | true => exact Or.inl rfl
      | false =>
        simp only []
        exact deadlineCheck_counter now _
    | cons a rest =>
      simp only []
      rw [handleAction_counter]
      exact Or.inl rfl

/-- A run of the loop never raises the sprint counter as long as the counter cannot
reach the smallest `int` within the run: each iteration decrements it at most once. -/
theorem SpawnSessionTimer_counter_le (clock : List Int) :
    ∀ st : LoopState, minInt + clock.length ≤ st.session.Data.SprintDuration →
      (SpawnSessionTimer clock st).state.session.Data.SprintDuration
        ≤ st.session.Data.SprintDuration := by
  induction clock with
  | nil =>
    intro st _
    exact le_refl _
  | cons t clock ih =>
    intro st hst
    have hlen : ((t :: clock).length : Int) = clock.length + 1 := by simp
    rw [hlen] at hst
    have hne : st.session.Data.SprintDuration ≠ minInt := by
      have := Int.ofNat_nonneg clock.length
      omega
    have hle : (loopIteration t st).state.session.Data.SprintDuration
        ≤ st.session.Data.SprintDuration := by
      rcases loopIteration_counter t st with h | h
      · exact le_of_eq h
      · rw [h]; exact decrementInt_le _ hne
    have hge : st.session.Data.SprintDuration - 1
        ≤ (loopIteration t st).state.session.Data.SprintDuration := by
      rcases loopIteration_counter t st with h | h
      · rw [h]; omega
      · rw [h]; exact sub_one_le_decrementInt _
    unfold SpawnSessionTimer
    cases hflow : loopIteration t st with
    | continueLoop st1 =>
      rw [hflow] at hle hge
      exact le_trans (ih st1 (by simp only [Flow.state] at hge; omega)) hle
    | breakLoop st1 =>
      rw [hflow] at hle
      simp only [deferredClose]
      cases closeChan st1.session.ActionsChannel <;> exact hle
    | panicked p st1 =>
      rw [hflow] at hle
      exact hle

/-- C9: a closed queue does not give a silent exit. When the loop finds its queue
closed and empty it calls no handler and changes no progress field, it clears the
queue reference and leaves the loop; the deferred `close` then runs on the nil
reference and the run ends in the panic "close of nil channel". -/
theorem closed_queue_exit_panics (now : Int) (clock : List Int) (st : LoopState)
    (hq : st.session.ActionsChannel = some ⟨[], true⟩) :
    loopIteration now st
      = .breakLoop { st with session := { st.session with ActionsChannel := none } } ∧
    SpawnSessionTimer (now :: clock) st
      = .crashed GoPanic.closeOfNilChannel
          { st with session := { st.session with ActionsChannel := none } } ∧
    (SpawnSessionTimer (now :: clock) st).state.calls = st.calls ∧
    (SpawnSessionTimer (now :: clock) st).state.session.Data = st.session.Data := by
  have hstep : loopIteration now st
      = .breakLoop { st with session := { st.session with ActionsChannel := none } } := by
    simp [loopIteration, ReadingActionChannel, hq]
  have hrun : SpawnSessionTimer (now :: clock) st
      = .crashed GoPanic.closeOfNilChannel
          { st with session := { st.session with ActionsChannel := none } } := by
    simp [SpawnSessionTimer, hstep, deferredClose, closeChan]
  exact ⟨hstep, hrun, by rw [hrun]; rfl, by rw [hrun]; rfl⟩

/-- C9, witness: the started session of scenario A whose queue was closed from
outside; the loop, polled at time 5, ends in the panic. -/
theorem closed_queue_exit_panics_witness :
    SpawnSessionTimer (5 :: [])
        ⟨{ AssignTimestamps 0 (newSession 2 1500 300) with
            ActionsChannel := some ⟨[], true⟩ }, []⟩
      = .crashed GoPanic.closeOfNilChannel
          ⟨{ AssignTimestamps 0 (newSession 2 1500 300) with ActionsChannel := none }, []⟩ :=
  (closed_queue_exit_panics 5 []
    ⟨{ AssignTimestamps 0 (newSession 2 1500 300) with
        ActionsChannel := some ⟨[], true⟩ }, []⟩ rfl).2.1

/-- C10, counterexample: on the session whose sprint counter holds the smallest `int`
the counter increases: `StartSession` takes it from -9223372036854775808 to
9223372036854775807, and so does the loop's check of a passed work deadline, which
then queues `RestStarted`. -/
theorem sprint_counter_increases_at_smallest_int :
    (∃ s1, (StartSession 0 (some minCounterSession)).session = some s1 ∧
      s1.Data.SprintDuration = 9223372036854775807 ∧
      minCounterSession.Data.SprintDuration < s1.Data.SprintDuration) ∧
    (deadlineCheck 1501 ⟨minCounterSession, []⟩).state.session.Data.SprintDuration
      = 9223372036854775807 ∧
    minCounterSession.Data.SprintDuration
      < (deadlineCheck 1501 ⟨minCounterSession, []⟩).state.session.Data.SprintDuration ∧
    (deadlineCheck 1501 ⟨minCounterSession, []⟩).state.session.ActionsChannel
      = some ⟨[actRestStarted], false⟩ :=
  ⟨⟨_, rfl, by decide, by decide⟩, by decide, by decide, by decide⟩

/-- C10, amended: the sprint counter never increases while it is above the smallest
`int`. `ResumeSession` and the loop's handling of any received action leave the
counter as it is, for every session. For every session whose counter is not the
smallest `int`, `StartSession`, the deadline check and a whole pass through the loop
body leave a counter that is at most the previous one; and every run of the loop over
clock readings, however it ends, leaves a counter that is at most the one it started
with when that one is at least the smallest `int` plus the number of readings. -/
theorem sprint_counter_never_increases
    (now : Int) (clock : List Int) (s : Session) (a : DispatchAction) (st : LoopState)
    (hs : s.Data.SprintDuration ≠ minInt)
    (hst : st.session.Data.SprintDuration ≠ minInt)
    (hrun : minInt + clock.length ≤ st.session.Data.SprintDuration) :
    (∃ s1, (StartSession now (some s)).session = some s1 ∧
      s1.Data.SprintDuration ≤ s.Data.SprintDuration) ∧
    (∃ s1, (ResumeSession now (some s)).session = some s1 ∧
      s1.Data.SprintDuration = s.Data.SprintDuration) ∧
    (handleAction now a st).state.session.Data.SprintDuration
      = st.session.Data.SprintDuration ∧
    (deadlineCheck now st).state.session.Data.SprintDuration
      ≤ st.session.Data.SprintDuration ∧
    (loopIteration now st).state.session.Data.SprintDuration
      ≤ st.session.Data.SprintDuration ∧
    (SpawnSessionTimer clock st).state.session.Data.SprintDuration
      ≤ st.session.Data.SprintDuration := by
  refine ⟨?_, ?_, handleAction_counter now a st, ?_, ?_,
    SpawnSessionTimer_counter_le clock st hrun⟩
  · by_cases hz : isZero (some s) = true
    · exact ⟨s, by simp [StartSession, hz], le_refl _⟩
    · exact ⟨_, by simp only [StartSession, hz]; rfl,
        by simpa [AssignTimestamps] using decrementInt_le _ hs⟩
  · unfold ResumeSession
    simp only []
    split_ifs
    · exact ⟨s, rfl, rfl⟩
    · exact ⟨s, rfl, rfl⟩
    · exact ⟨s, rfl, rfl⟩
    · exact ⟨_, rfl, by simp [AssignTimestamps]⟩
  · rcases deadlineCheck_counter now st with h | h
    · exact le_of_eq h
    · rw [h]; exact decrementInt_le _ hst
  · rcases loopIteration_counter now st with h | h
    · exact le_of_eq h
    · rw [h]; exact decrementInt_le _ hst

/-- C10, witness: the started session of scenario A (counter 1) and its loop over the
readings of the whole scenario, at the end of which the counter is -1. -/
theorem sprint_counter_never_increases_witness :
    (∃ s1, (StartSession 0 (some (newSession 2 1500 300))).session = some s1 ∧
      s1.Data.SprintDuration ≤ (newSession 2 1500 300).Data.SprintDuration) ∧
    (SpawnSessionTimer [1501, 1501, 1802, 1802, 3303, 3303]
        ⟨AssignTimestamps 0
          { newSession 2 1500 300 with
            Data := { (newSession 2 1500 300).Data with SprintDuration := 1 } }, []⟩
      ).state.session.Data.SprintDuration ≤ 1 :=
  have h := sprint_counter_never_increases 0 [1501, 1501, 1802, 1802, 3303, 3303]
    (newSession 2 1500 300) actPaused
    ⟨AssignTimestamps 0
      { newSession 2 1500 300 with
        Data := { (newSession 2 1500 300).Data with SprintDuration := 1 } }, []⟩
    (by decide) (by decide) (by decide)
  ⟨h.1, h.2.2.2.2.2⟩

/-! ## Text commands, the default session and runs of n sprints -/

/-- What was consumed in front of `rest` is the part in front of it. -/
theorem consumed_append (ds rest : List Char) : consumed (ds ++ rest) rest = ds := by
  simp [consumed]

/-- A run of characters of the range, followed by a rest that does not start with one, is
taken whole by the greedy repetition when the continuation accepts the rest. -/
theorem matchStar_greedy (lo hi : Char) (ds rest : List Char)
    (k : List Char → Option Submatches) (v : Submatches)
    (hds : ∀ c ∈ ds, inRange lo hi c = true)
    (hrest : ∀ c r, rest = c :: r → inRange lo hi c = false)
    (hk : k rest = some v) :
    matchStar lo hi (ds ++ rest) k = some v := by
  induction ds with
  | nil =>
    cases rest with
    | nil => simpa [matchStar] using hk
    | cons c r => simp [matchStar, hrest c r rfl, hk]
  | cons d tl ih =>
    have hd : inRange lo hi d = true := hds d (List.mem_cons_self d tl)
    have := ih (fun c hc => hds c (List.mem_cons_of_mem d hc))
    simp [matchStar, hd, this]

/-- A successful greedy repetition consumed characters of the range, and the continuation
accepted what was left. -/
theorem matchStar_sound (lo hi : Char) (inp : List Char)
    (k : List Char → Option Submatches) (v : Submatches)
    (h : matchStar lo hi inp k = some v) :
    ∃ ds rest, inp = ds ++ rest ∧ (∀ c ∈ ds, inRange lo hi c = true) ∧ k rest = some v := by
  induction inp with
  | nil => exact ⟨[], [], rfl, by simp, by simpa [matchStar] using h⟩
  | cons c cs ih =>
    by_cases hc : inRange lo hi c = true
    · cases hrec : matchStar lo hi cs k with
      | some w =>
        have hw : w = v := by simpa [matchStar, hc, hrec] using h
        obtain ⟨ds, rest, hcs, hds, hk⟩ := ih (hw ▸ hrec)
        refine ⟨c :: ds, rest, by simp [hcs], ?_, hk⟩
        intro x hx
        rcases List.mem_cons.mp hx with rfl | hx
        · exact hc
        · exact hds x hx
      | none =>
        exact ⟨[], c :: cs, rfl, by simp, by simpa [matchStar, hc, hrec] using h⟩
    · exact ⟨[], c :: cs, rfl, by simp, by simpa [matchStar, hc] using h⟩

/-- The numeral expression takes a numeral whole when what follows does not start with a
digit and the continuation accepts it. -/
theorem numeral_complete (ds rest : List Char) (caps : Submatches)
    (k : List Char → Submatches → Option Submatches) (v : Submatches)
    (hds : isNumeral ds)
    (hrest : ∀ c r, rest = c :: r → inRange '0' '9' c = false)
    (hk : k rest caps = some v) :
    matchK numeralPattern (ds ++ rest) caps k = some v := by
  obtain ⟨d, tl, rfl, hd, htl⟩ := hds
  simp only [numeralPattern, matchK, List.cons_append, hd, if_true]
  exact matchStar_greedy '0' '9' tl rest _ v htl hrest hk

/-- A successful match of the numeral expression consumed a numeral. -/
theorem numeral_sound (inp : List Char) (caps : Submatches)
    (k : List Char → Submatches → Option Submatches) (v : Submatches)
    (h : matchK numeralPattern inp caps k = some v) :
    ∃ ds rest, inp = ds ++ rest ∧ isNumeral ds ∧ k rest caps = some v := by
  cases inp with
  | nil => simp [numeralPattern, matchK] at h
  | cons d tl =>
    by_cases hd : inRange '1' '9' d = true
    · simp only [numeralPattern, matchK, hd, if_true] at h
      obtain ⟨ds, rest, htl, hds, hk⟩ := matchStar_sound '0' '9' tl _ v h
      exact ⟨d :: ds, rest, by simp [htl], ⟨d, ds, rfl, hd, hds⟩, hk⟩
    · simp [numeralPattern, matchK, hd] at h


/-- Reading further digits never lowers the value read so far. -/
theorem foldl_digits_ge (tl : List Char) (acc : Nat) :
    acc ≤ tl.foldl (fun acc c => acc * 10 + (c.toNat - 48)) acc := by
  induction tl generalizing acc with
  | nil => exact le_refl _
  | cons c cs ih =>
    simp only [List.foldl_cons]
    exact le_trans (by omega) (ih _)

/-- A numeral denotes a number that is at least 1. -/
theorem decimalValue_pos (ds : List Char) (h : isNumeral ds) : 1 ≤ decimalValue ds := by
  obtain ⟨d, tl, rfl, hd, -⟩ := h
  have hd1 : 49 ≤ d.toNat := by
    simp [inRange] at hd
    exact hd.1
  simp only [decimalValue, List.foldl_cons]
  exact le_trans (by omega) (foldl_digits_ge tl _)

/-- The value `Atoi` gives for a numeral: its decimal value when it fits a 64-bit `int`, an
error otherwise. -/
theorem Atoi_numeral (ds : List Char) (h : isNumeral ds) :
    Atoi ds = if (decimalValue ds : Int) ≤ maxInt then some (decimalValue ds : Int) else none := by
  obtain ⟨d, tl, rfl, hd, htl⟩ := h
  have hd1 : 49 ≤ d.toNat ∧ d.toNat ≤ 57 := by
    simpa [inRange] using hd
  have hminus : d ≠ '-' := by
    intro heq
    rw [heq] at hd1
    exact absurd hd1 (by decide)
  have hplus : d ≠ '+' := by
    intro heq
    rw [heq] at hd1
    exact absurd hd1 (by decide)
  have hd0 : inRange '0' '9' d = true := by
    simp [inRange]
    constructor <;> omega
  have hall : (d :: tl).all (inRange '0' '9') = true := by
    simp [hd0]
    exact htl
  have hmin : minInt ≤ (decimalValue (d :: tl) : Int) := by
    have : (0 : Int) ≤ (decimalValue (d :: tl) : Int) := Int.ofNat_nonneg _
    unfold minInt
    omega
  unfold Atoi
  split
  · rename_i body heq
    exact absurd (List.cons.inj heq).1 hminus
  · rename_i body heq
    exact absurd (List.cons.inj heq).1 hplus
  · simp [hall, hmin]

/-- A value inside the `int` range is not changed by the wrap. -/
theorem wrapInt_of_range (x : Int) (h1 : minInt ≤ x) (h2 : x ≤ maxInt) : wrapInt x = x := by
  unfold wrapInt
  unfold minInt at h1
  unfold maxInt at h2
  omega


/-- The match of a concatenation. -/
theorem matchK_seq (a b : Regex) (inp : List Char) (caps : Submatches)
    (k : List Char → Submatches → Option Submatches) :
    matchK (.seq a b) inp caps k
      = matchK a inp caps (fun rest caps1 => matchK b rest caps1 k) := rfl

/-- The match of a capture group. -/
theorem matchK_group (i : Nat) (a : Regex) (inp : List Char) (caps : Submatches)
    (k : List Char → Submatches → Option Submatches) :
    matchK (.group i a) inp caps k
      = matchK a inp caps (fun rest caps1 => k rest (caps1.set i (consumed inp rest))) := rfl

/-- A successful match of a character consumed that character. -/
theorem char_sound (c : Char) (inp : List Char) (caps : Submatches)
    (k : List Char → Submatches → Option Submatches) (v : Submatches)
    (h : matchK (.char c) inp caps k = some v) :
    ∃ rest, inp = c :: rest ∧ k rest caps = some v := by
  cases inp with
  | nil => simp [matchK] at h
  | cons x rest =>
    by_cases hx : x = c
    · subst hx
      exact ⟨rest, rfl, by simpa [matchK] using h⟩
    · simp [matchK, hx] at h

/-- A successful match of the greedy `?` went through the body or skipped it. -/
theorem opt_sound (a : Regex) (inp : List Char) (caps : Submatches)
    (k : List Char → Submatches → Option Submatches) (v : Submatches)
    (h : matchK (.opt a) inp caps k = some v) :
    matchK a inp caps k = some v ∨ k inp caps = some v := by
  cases ha : matchK a inp caps k with
  | some w => left; simpa [matchK, ha] using h
  | none => right; simpa [matchK, ha] using h

/-- The submatches of a match of `BasicPattern`: group 1 is a numeral; group 3 is empty
or a numeral; group 5 is empty, or a numeral when group 3 is one. -/
theorem matchAt_BasicPattern_sound (inp : List Char) (v : Submatches)
    (h : matchAt BasicPattern inp = some v) :
    ∃ dn, isNumeral dn ∧ v[1]? = some dn ∧
      ((v[3]? = some [] ∧ v[5]? = some []) ∨
        ∃ dm, isNumeral dm ∧ v[3]? = some dm ∧
          (v[5]? = some [] ∨ ∃ dr, isNumeral dr ∧ v[5]? = some dr)) := by
  have hcaps : List.replicate (BasicPattern.numGroups + 1) ([] : List Char)
      = [[], [], [], [], [], []] := by decide
  unfold matchAt at h
  rw [hcaps] at h
  simp only [BasicPattern, matchK_seq, matchK_group] at h
  obtain ⟨inp1, rfl, h⟩ := char_sound _ _ _ _ _ h
  obtain ⟨dn, rest1, rfl, hdn, h⟩ := numeral_sound _ _ _ _ h
  refine ⟨dn, hdn, ?_⟩
  rcases opt_sound _ _ _ _ _ h with h | h
  · simp only [matchK_seq, matchK_group] at h
    obtain ⟨r1, rfl, h⟩ := char_sound _ _ _ _ _ h
    obtain ⟨r2, rfl, h⟩ := char_sound _ _ _ _ _ h
    obtain ⟨r3, rfl, h⟩ := char_sound _ _ _ _ _ h
    obtain ⟨dm, rest2, rfl, hdm, h⟩ := numeral_sound _ _ _ _ h
    rcases opt_sound _ _ _ _ _ h with h | h
    · simp only [matchK_seq, matchK_group] at h
      obtain ⟨q1, rfl, h⟩ := char_sound _ _ _ _ _ h
      obtain ⟨q2, rfl, h⟩ := char_sound _ _ _ _ _ h
      obtain ⟨q3, rfl, h⟩ := char_sound _ _ _ _ _ h
      obtain ⟨q4, rfl, h⟩ := char_sound _ _ _ _ _ h
      obtain ⟨dr, rest3, rfl, hdr, h⟩ := numeral_sound _ _ _ _ h
      simp only [Option.some.injEq] at h
      subst h
      exact ⟨by simp [consumed_append], Or.inr ⟨dm, hdm, by simp [consumed_append],
        Or.inr ⟨dr, hdr, by simp [consumed_append]⟩⟩⟩
    · simp only [Option.some.injEq] at h
      subst h
      exact ⟨by simp [consumed_append], Or.inr ⟨dm, hdm, by simp [consumed_append],
        Or.inl (by simp)⟩⟩
  · simp only [Option.some.injEq] at h
    subst h
    exact ⟨by simp [consumed_append], Or.inl ⟨by simp, by simp⟩⟩

/-- The leftmost match is a match at some place of the text. -/
theorem firstSubmatch_sound (r : Regex) (text : List Char) (v : Submatches)
    (h : firstSubmatch r text = some v) :
    ∃ inp, matchAt r inp = some v := by
  induction text with
  | nil => exact ⟨[], h⟩
  | cons c cs ih =>
    cases hm : matchAt r (c :: cs) with
    | some w => exact ⟨c :: cs, by simpa [firstSubmatch, hm] using h⟩
    | none => exact ih (by simpa [firstSubmatch, hm] using h)


/-- The match of a character at that character. -/
theorem matchK_char_cons (c : Char) (rest : List Char) (caps : Submatches)
    (k : List Char → Submatches → Option Submatches) :
    matchK (.char c) (c :: rest) caps k = k rest caps := by
  simp [matchK]

/-- The numeral expression on an input given as a numeral and a rest. -/
theorem numeral_complete_of_eq (inp ds rest : List Char) (caps : Submatches)
    (k : List Char → Submatches → Option Submatches) (v : Submatches)
    (hinp : inp = ds ++ rest)
    (hds : isNumeral ds)
    (hrest : ∀ c r, rest = c :: r → inRange '0' '9' c = false)
    (hk : k rest caps = some v) :
    matchK numeralPattern inp caps k = some v := by
  rw [hinp]
  exact numeral_complete ds rest caps k v hds hrest hk

/-- The submatches of `BasicPattern` before the match: six empty entries. -/
theorem replicate_BasicPattern :
    List.replicate (BasicPattern.numGroups + 1) ([] : List Char)
      = [[], [], [], [], [], []] := by decide

/-- A character does not match the empty input. -/
theorem matchK_char_nil (c : Char) (caps : Submatches)
    (k : List Char → Submatches → Option Submatches) :
    matchK (.char c) [] caps k = none := rfl

/-- The greedy `?` takes the match of its body when there is one. -/
theorem opt_complete (a : Regex) (inp : List Char) (caps : Submatches)
    (k : List Char → Submatches → Option Submatches) (v : Submatches)
    (h : matchK a inp caps k = some v) :
    matchK (.opt a) inp caps k = some v := by
  simp [matchK, h]

/-- The greedy `?` skips its body when the body has no match. -/
theorem opt_skip (a : Regex) (inp : List Char) (caps : Submatches)
    (k : List Char → Submatches → Option Submatches)
    (h : matchK a inp caps k = none) :
    matchK (.opt a) inp caps k = k inp caps := by
  simp [matchK, h]

/-- The submatches of `BasicPattern` on the text `/N`. -/
theorem matchAt_minutes (dn : List Char) (hdn : isNumeral dn) :
    matchAt BasicPattern ('/' :: dn) = some ['/' :: dn, dn, [], [], [], []] := by
  unfold matchAt
  rw [replicate_BasicPattern]
  simp only [BasicPattern, matchK_seq, matchK_group, matchK_char_cons]
  refine numeral_complete_of_eq _ dn [] _ _ _ (by simp) hdn (by simp) ?_
  beta_reduce
  rw [opt_skip _ _ _ _ (by simp only [matchK_seq, matchK_group, matchK_char_nil])]
  simp [consumed]

/-- The submatches of `BasicPattern` on the text `/NforM`. -/
theorem matchAt_minutes_for (dn dm : List Char) (hdn : isNumeral dn) (hdm : isNumeral dm) :
    matchAt BasicPattern ('/' :: (dn ++ 'f' :: 'o' :: 'r' :: dm))
      = some ['/' :: (dn ++ 'f' :: 'o' :: 'r' :: dm), dn, 'f' :: 'o' :: 'r' :: dm, dm,
          [], []] := by
  unfold matchAt
  rw [replicate_BasicPattern]
  simp only [BasicPattern, matchK_seq, matchK_group, matchK_char_cons]
  refine numeral_complete_of_eq _ dn ('f' :: 'o' :: 'r' :: dm) _ _ _ rfl hdn ?_ ?_
  · intro c r h
    rw [← (List.cons.inj h).1]
    decide
  · beta_reduce
    apply opt_complete
    simp only [matchK_seq, matchK_group, matchK_char_cons]
    refine numeral_complete_of_eq _ dm [] _ _ _ (by simp) hdm (by simp) ?_
    beta_reduce
    rw [opt_skip _ _ _ _ (by simp only [matchK_seq, matchK_group, matchK_char_nil])]
    simp [consumed]

/-- The submatches of `BasicPattern` on the text `/NforMrestR`. -/
theorem matchAt_minutes_for_rest (dn dm dr : List Char)
    (hdn : isNumeral dn) (hdm : isNumeral dm) (hdr : isNumeral dr) :
    matchAt BasicPattern
        ('/' :: (dn ++ 'f' :: 'o' :: 'r' :: (dm ++ 'r' :: 'e' :: 's' :: 't' :: dr)))
      = some ['/' :: (dn ++ 'f' :: 'o' :: 'r' :: (dm ++ 'r' :: 'e' :: 's' :: 't' :: dr)), dn,
          'f' :: 'o' :: 'r' :: (dm ++ 'r' :: 'e' :: 's' :: 't' :: dr), dm,
          'r' :: 'e' :: 's' :: 't' :: dr, dr] := by
  unfold matchAt
  rw [replicate_BasicPattern]
  simp only [BasicPattern, matchK_seq, matchK_group, matchK_char_cons]
  refine numeral_complete_of_eq _ dn _ _ _ _ rfl hdn ?_ ?_
  · intro c r h
    rw [← (List.cons.inj h).1]
    decide
  · beta_reduce
    apply opt_complete
    simp only [matchK_seq, matchK_group, matchK_char_cons]
    refine numeral_complete_of_eq _ dm _ _ _ _ rfl hdm ?_ ?_
    · intro c r h
      rw [← (List.cons.inj h).1]
      decide
    · beta_reduce
      apply opt_complete
      simp only [matchK_seq, matchK_group, matchK_char_cons]
      refine numeral_complete_of_eq _ dr [] _ _ _ (by simp) hdr (by simp) ?_
      simp [consumed]

/-- The pattern `BasicPattern` matches only at a slash followed by a digit from 1 to 9. -/
theorem matchAt_none_of_not_command (inp : List Char)
    (h : ∀ d rest, inp = '/' :: d :: rest → inRange '1' '9' d = false) :
    matchAt BasicPattern inp = none := by
  unfold matchAt
  simp only [BasicPattern, matchK_seq, matchK_group]
  cases inp with
  | nil => rfl
  | cons x rest =>
    by_cases hx : x = '/'
    · subst hx
      rw [matchK_char_cons]
      cases rest with
      | nil => rfl
      | cons d rest1 =>
        have hd := h d rest1 rfl
        simp [numeralPattern, matchK, hd]
    · simp [matchK, hx]

/-- A text with no slash followed by a digit from 1 to 9 has no match of `BasicPattern`. -/
theorem firstSubmatch_none_of_not_hasCommand (text : List Char) (h : ¬ hasCommand text) :
    firstSubmatch BasicPattern text = none := by
  induction text with
  | nil => exact matchAt_none_of_not_command [] (fun d rest hh => by cases hh)
  | cons c cs ih =>
    have hhere : matchAt BasicPattern (c :: cs) = none := by
      apply matchAt_none_of_not_command
      intro d rest heq
      by_contra hd
      exact h ⟨[], d, rest, by simpa using heq, by simpa using hd⟩
    have hlater : ¬ hasCommand cs := by
      rintro ⟨before, d, after, heq, hd⟩
      exact h ⟨c :: before, d, after, by simp [heq], hd⟩
    simp [firstSubmatch, hhere, ih hlater]


/-- The loop over the readings of valid rounds: each round is one work interval and one
rest, it lowers the counter by one and adds one rest-begin and one rest-finished call. -/
theorem rounds_run (p r : Int) (rounds : List Round) (clock : List Int) :
    ∀ (st : LoopState) (d : Int),
      st.session.ActionsChannel = some ⟨[], false⟩ →
      st.session.Data.IsRest = false →
      st.session.EndNextSprintTimestamp = some d →
      st.session.PomodoroDurationSet = p →
      st.session.RestDurationSet = r →
      (rounds = [] ∨ (rounds.length : Int) ≤ st.session.Data.SprintDuration) →
      validRounds p r d rounds →
      ∃ st1, SpawnSessionTimer (roundsClock rounds ++ clock) st = SpawnSessionTimer clock st1 ∧
        st1.session.ActionsChannel = some ⟨[], false⟩ ∧
        st1.session.Data.IsRest = false ∧
        st1.session.EndNextSprintTimestamp = some (lastDeadline p d rounds) ∧
        st1.session.Data.SprintDuration = st.session.Data.SprintDuration - rounds.length ∧
        st1.calls = st.calls ++ restCalls rounds.length := by
  induction rounds with
  | nil =>
    intro st d hch hrest hd _ _ _ _
    exact ⟨st, rfl, hch, hrest, hd, by simp, by simp [restCalls]⟩
  | cons x xs ih =>
    intro st d hch hrest hd hp hr hc hvalid
    obtain ⟨hwi, hwp, hri, hrp, hxs⟩ := hvalid
    have hlen : ((x :: xs).length : Int) = xs.length + 1 := by simp
    have hc : (xs.length : Int) + 1 ≤ st.session.Data.SprintDuration := by
      rcases hc with hc | hc
      · exact absurd hc (List.cons_ne_nil x xs)
      · rw [hlen] at hc; exact hc
    have hclock : roundsClock (x :: xs) ++ clock
        = x.workIdle ++ x.workPassed :: x.restHandled ::
            (x.restIdle ++ x.restPassed :: x.workHandled :: (roundsClock xs ++ clock)) := by
      simp [roundsClock, Round.clock, List.append_assoc]
    have hA := idle_work st d x.workIdle
      (x.workPassed :: x.restHandled ::
        (x.restIdle ++ x.restPassed :: x.workHandled :: (roundsClock xs ++ clock)))
      hch hrest hd hwi
    have hB := work_deadline_rest st d x.workPassed x.restHandled
      (x.restIdle ++ x.restPassed :: x.workHandled :: (roundsClock xs ++ clock))
      hch hrest hd hwp (by have := Int.ofNat_nonneg xs.length; omega)
    have hC := idle_rest (restBegun x.restHandled st) (x.restHandled + r) x.restIdle
      (x.restPassed :: x.workHandled :: (roundsClock xs ++ clock))
      (by simp [restBegun, AssignTimestamps, hch]) (by simp [restBegun, AssignTimestamps])
      (by simp [restBegun, AssignTimestamps, hr]) hri
    have hD := rest_deadline_work (restBegun x.restHandled st) (x.restHandled + r)
      x.restPassed x.workHandled (roundsClock xs ++ clock)
      (by simp [restBegun, AssignTimestamps, hch]) (by simp [restBegun, AssignTimestamps])
      (by simp [restBegun, AssignTimestamps, hr]) hrp
    obtain ⟨st1, hrun, h1, h2, h3, h4, h5⟩ :=
      ih (workBegun x.workHandled (restBegun x.restHandled st)) (x.workHandled + p)
        (by simp [workBegun, restBegun, AssignTimestamps, hch])
        (by simp [workBegun, restBegun, AssignTimestamps])
        (by simp [workBegun, restBegun, AssignTimestamps, hp])
        (by simp [workBegun, restBegun, AssignTimestamps, hp])
        (by simp [workBegun, restBegun, AssignTimestamps, hr])
        (Or.inr (by simp [workBegun, restBegun, AssignTimestamps]; omega))
        hxs
    refine ⟨st1, by rw [hclock, hA, hB, hC, hD, hrun], h1, h2, ?_, ?_, ?_⟩
    · simpa [lastDeadline] using h3
    · rw [h4]
      simp [workBegun, restBegun, AssignTimestamps]
      omega
    · rw [h5]
      simp [workBegun, restBegun, restCalls]

/-- The number of calls of each kind among the calls of `n` rest phases. -/
theorem count_restBegin_restCalls (n : Nat) :
    List.count Callback.restBegin (restCalls n) = n ∧
    List.count Callback.restFinished (restCalls n) = n ∧
    List.count (Callback.endSession PomodoroEndKind.PomodoroFinished) (restCalls n) = 0 := by
  induction n with
  | zero => simp [restCalls]
  | succ n ih =>
    obtain ⟨h1, h2, h3⟩ := ih
    simp [restCalls, List.count_cons, h1, h2, h3]

/-- C14: for every sprint count n >= 1 and positive durations, every run from
`StartSession` with no external action in which each deadline passes (n - 1 valid
rounds of a work interval and a rest, then a last work interval) makes n - 1
rest-begin and n - 1 rest-finished calls, so n work intervals and n - 1 rests, then
calls the end handler exactly once, with kind finished, and exits with the sprint
counter at -1. -/
theorem n_sprint_run (n : Nat) (p r t0 tPass tHandle : Int) (rounds : List Round)
    (w : List Int)
    (hn : 1 ≤ n) (hp : 0 < p) (_hr : 0 < r)
    (hlen : rounds.length = n - 1)
    (hvalid : validRounds p r (t0 + p) rounds)
    (hw : ∀ t ∈ w, t ≤ lastDeadline p (t0 + p) rounds)
    (hpass : lastDeadline p (t0 + p) rounds < tPass) :
    ∃ fin, startAndRun t0 (newSession n p r) (roundsClock rounds ++ (w ++ [tPass, tHandle]))
        = some (.exited fin) ∧
      fin.calls = restCalls (n - 1)
        ++ [Callback.endSession PomodoroEndKind.PomodoroFinished] ∧
      List.count Callback.restBegin fin.calls = n - 1 ∧
      List.count Callback.restFinished fin.calls = n - 1 ∧
      1 + List.count Callback.restFinished fin.calls = n ∧
      List.count (Callback.endSession PomodoroEndKind.PomodoroFinished) fin.calls = 1 ∧
      fin.session.Data.SprintDuration = -1 ∧
      fin.session.Data.IsFinished = true := by
  have hz : isZero (some (newSession n p r)) = false := by
    simp [isZero, newSession]; omega
  obtain ⟨st0, hst0⟩ : ∃ st0 : LoopState, st0 =
      ⟨AssignTimestamps t0
        { newSession n p r with
          Data := { (newSession n p r).Data with
            IsPaused := false, IsCancel := false, SprintDuration := (n : Int) - 1 } }, []⟩ :=
    ⟨_, rfl⟩
  have hstart : ∀ clock, startAndRun t0 (newSession n p r) clock
      = some (SpawnSessionTimer clock st0) := by
    intro clock
    rw [hst0]
    simp only [startAndRun, StartSession, hz]
    rfl
  have hch : (openQueue st0).session.ActionsChannel = some ⟨[], false⟩ :=
    openQueue_channel st0 (Or.inl (by rw [hst0]; rfl))
  have hcount : (openQueue st0).session.Data.SprintDuration = (n : Int) - 1 := by
    rw [hst0]; rfl
  obtain ⟨st1, hrun, h1, h2, h3, h4, h5⟩ :=
    rounds_run p r rounds (w ++ [tPass, tHandle]) (openQueue st0) (t0 + p) hch
      (by rw [hst0]; rfl) (by rw [hst0]; rfl) (by rw [hst0]; rfl) (by rw [hst0]; rfl)
      (by
        rcases Nat.eq_zero_or_pos rounds.length with h0 | h0
        · exact Or.inl (List.length_eq_zero.mp h0)
        · exact Or.inr (by rw [hcount]; omega)) hvalid
  have hfin : SpawnSessionTimer (w ++ [tPass, tHandle]) st1 = .exited (finishedState st1) := by
    rw [idle_work st1 _ w [tPass, tHandle] h1 h2 h3 hw]
    exact work_deadline_finish st1 _ tPass tHandle [] h1 h2 h3 hpass
      (by rw [h4, hcount, hlen]; omega)
      (by rw [h4, hcount, hlen]; have := minInt_neg; omega)
  have hcalls : (finishedState st1).calls = restCalls (n - 1)
      ++ [Callback.endSession PomodoroEndKind.PomodoroFinished] := by
    simp only [finishedState, h5, hlen]
    rw [hst0]
    simp [openQueue]
  obtain ⟨c1, c2, c3⟩ := count_restBegin_restCalls (n - 1)
  refine ⟨finishedState st1, ?_, hcalls, ?_, ?_, ?_, ?_, ?_, rfl⟩
  · rw [hstart, ← SpawnSessionTimer_openQueue_of_ne_nil _ st0 (by simp), hrun, hfin]
  · rw [hcalls]; simp [List.count_append, c1]
  · rw [hcalls]; simp [List.count_append, c2]
  · rw [hcalls]; simp [List.count_append, c2]; omega
  · rw [hcalls]; simp [List.count_append, c3]
  · simp only [finishedState, h4, hcount, hlen]
    omega

/-- C14, witness: two sprints of 1500 s with a rest of 300 s, started at time 0, with
idle readings in each interval. -/
theorem n_sprint_run_witness :
    ∃ fin, startAndRun 0 (newSession (2 : Nat) 1500 300)
        (roundsClock [⟨[10], 1501, 1502, [1600], 1803, 1804⟩] ++ ([2000] ++ [3305, 3306]))
        = some (.exited fin) ∧
      fin.calls = restCalls (2 - 1)
        ++ [Callback.endSession PomodoroEndKind.PomodoroFinished] ∧
      fin.session.Data.SprintDuration = -1 :=
  (n_sprint_run 2 1500 300 0 3305 3306 [⟨[10], 1501, 1502, [1600], 1803, 1804⟩] [2000]
    (by decide) (by decide) (by decide) rfl
    (by simp [validRounds]) (by simp [lastDeadline]) (by simp [lastDeadline])).imp
    fun _ h => ⟨h.1, h.2.1, h.2.2.2.2.2.2.1⟩


/-- C7, counterexample: a new session with sprint count 0, 1500 s of work and 300 s of
rest is started at time 0; at the first passed work deadline (reading 1501) the loop
queues `Finished` on its own, and the next iteration calls the end handler with kind
finished and exits, the counter being -2: the session is not unbounded. -/
theorem zero_sprint_count_is_not_unbounded :
    startAndRun 0 (newSession 0 1500 300) [1501]
      = some (.running
          ⟨{ newSession 0 1500 300 with
              Data := { (newSession 0 1500 300).Data with SprintDuration := -2 }
              EndNextSprintTimestamp := some 1500
              EndNextRestTimestamp := some 300
              ActionsChannel := some ⟨[actFinished], false⟩ }, []⟩) ∧
    startAndRun 0 (newSession 0 1500 300) [1501, 1501]
      = some (.exited
          ⟨{ newSession 0 1500 300 with
              Data := { (newSession 0 1500 300).Data with
                SprintDuration := -2, IsFinished := true }
              EndNextSprintTimestamp := some 1500
              EndNextRestTimestamp := some 300
              ActionsChannel := none },
            [Callback.endSession PomodoroEndKind.PomodoroFinished]⟩) := by
  refine ⟨by decide, by decide⟩

/-- C7, amended: a configured sprint count of zero does not make a session unbounded;
`StartSession` and the loop go by the sprint counter alone. For every session with
sprint count 0 and positive durations that is in the work phase with no queue, whatever
number n >= 0 its sprint counter starts from, every run from `StartSession` with no
external action in which each deadline passes ends by itself: after the rounds the
counter allows (none when n is 0 or 1) the loop dispatches `Finished` on its own, calls
the end handler with kind finished and exits. With the counter starting at 0 this
happens at the first passed work deadline, the counter going to -1 and then -2. -/
theorem zero_sprint_count_run_finishes (n : Nat) (p r t0 tPass tHandle : Int)
    (s : Session) (rounds : List Round) (w : List Int)
    (hset : s.SprintDurationSet = 0)
    (hp : s.PomodoroDurationSet = p) (hr : s.RestDurationSet = r)
    (hpos : 0 < p) (_hrpos : 0 < r)
    (hcur : s.Data.PomodoroDuration = p)
    (hrest : s.Data.IsRest = false)
    (hq : s.ActionsChannel = none)
    (hn : s.Data.SprintDuration = n)
    (hlen : rounds.length = n - 1)
    (hvalid : validRounds p r (t0 + p) rounds)
    (hw : ∀ t ∈ w, t ≤ lastDeadline p (t0 + p) rounds)
    (hpass : lastDeadline p (t0 + p) rounds < tPass) :
    ∃ st0 fin, spawnedState (StartSession t0 (some s)) = some st0 ∧
      st0.session.SprintDurationSet = 0 ∧
      st0.session.Data.SprintDuration = (n : Int) - 1 ∧
      SpawnSessionTimer (roundsClock rounds ++ (w ++ [tPass, tHandle])) st0 = .exited fin ∧
      fin.calls = restCalls (n - 1)
        ++ [Callback.endSession PomodoroEndKind.PomodoroFinished] ∧
      fin.session.Data.IsFinished = true ∧
      fin.session.Data.SprintDuration = (if n = 0 then -2 else -1) := by
  have hz : isZero (some s) = false := by
    have hne : s.PomodoroDurationSet ≠ 0 := by rw [hp]; omega
    simp [isZero, hne]
  have hdec : decrementInt s.Data.SprintDuration = (n : Int) - 1 := by
    rw [hn]
    exact decrementInt_of_gt _ (by have := minInt_neg; omega)
  obtain ⟨st0, hst0⟩ : ∃ st0 : LoopState, st0 =
      ⟨AssignTimestamps t0
        { s with
          Data := { s.Data with
            IsPaused := false, IsCancel := false,
            SprintDuration := decrementInt s.Data.SprintDuration } }, []⟩ :=
    ⟨_, rfl⟩
  have hstart : spawnedState (StartSession t0 (some s)) = some st0 := by
    rw [hst0]
    simp only [StartSession, hz]
    rfl
  have hch : (openQueue st0).session.ActionsChannel = some ⟨[], false⟩ :=
    openQueue_channel st0 (Or.inl (by rw [hst0]; exact hq))
  have hdata : (openQueue st0).session.Data = st0.session.Data := by
    rw [hst0]; simp [openQueue, ReadingActionChannel, AssignTimestamps, hq]
  have hcount : (openQueue st0).session.Data.SprintDuration = (n : Int) - 1 := by
    rw [hdata, hst0]; exact hdec
  obtain ⟨st1, hrun, h1, h2, h3, h4, h5⟩ :=
    rounds_run p r rounds (w ++ [tPass, tHandle]) (openQueue st0) (t0 + p) hch
      (by rw [hdata, hst0]; exact hrest)
      (by rw [hst0]; simp [openQueue, ReadingActionChannel, AssignTimestamps, hq, hcur])
      (by rw [hst0]; simp [openQueue, ReadingActionChannel, AssignTimestamps, hq, hp])
      (by rw [hst0]; simp [openQueue, ReadingActionChannel, AssignTimestamps, hq, hr])
      (by
        rcases Nat.eq_zero_or_pos rounds.length with h0 | h0
        · exact Or.inl (List.length_eq_zero.mp h0)
        · exact Or.inr (by rw [hcount]; omega)) hvalid
  have hfin : SpawnSessionTimer (w ++ [tPass, tHandle]) st1 = .exited (finishedState st1) := by
    rw [idle_work st1 _ w [tPass, tHandle] h1 h2 h3 hw]
    exact work_deadline_finish st1 _ tPass tHandle [] h1 h2 h3 hpass
      (by rw [h4, hcount, hlen]; omega)
      (by rw [h4, hcount, hlen]; have := minInt_neg; unfold minInt at *; omega)
  refine ⟨st0, finishedState st1, hstart, ?_, ?_, ?_, ?_, rfl, ?_⟩
  · rw [hst0]; exact hset
  · rw [hst0]; exact hdec
  · rw [← SpawnSessionTimer_openQueue_of_ne_nil _ st0 (by simp), hrun, hfin]
  · simp only [finishedState, h5, hlen]
    rw [hst0]
    simp [openQueue]
  · simp only [finishedState, h4, hcount, hlen]
    split_ifs with h0
    · subst h0; simp
    · omega

/-- C7, witness: the new session with sprint count 0, 1500 s of work and 300 s of rest,
started at time 0, with one idle reading before the work deadline passes. -/
theorem zero_sprint_count_run_finishes_witness :
    ∃ st0 fin, spawnedState (StartSession 0 (some (newSession 0 1500 300))) = some st0 ∧
      st0.session.SprintDurationSet = 0 ∧
      st0.session.Data.SprintDuration = -1 ∧
      SpawnSessionTimer ([700] ++ [1501, 1502]) st0 = .exited fin ∧
      fin.calls = [Callback.endSession PomodoroEndKind.PomodoroFinished] ∧
      fin.session.Data.IsFinished = true ∧
      fin.session.Data.SprintDuration = -2 :=
  zero_sprint_count_run_finishes 0 1500 300 0 1501 1502 (newSession 0 1500 300) [] [700]
    rfl rfl rfl (by decide) (by decide) rfl rfl rfl rfl rfl
    (by simp [validRounds]) (by simp [lastDeadline]) (by simp [lastDeadline])

/-- The empty text is a syntax error for `Atoi`. -/
theorem Atoi_nil : Atoi [] = none := rfl

/-- A match at the first character is the leftmost match. -/
theorem firstSubmatch_of_matchAt (r : Regex) (c : Char) (cs : List Char) (v : Submatches)
    (h : matchAt r (c :: cs) = some v) : firstSubmatch r (c :: cs) = some v := by
  simp [firstSubmatch, h]

/-- C11, amended: with the default pattern, for all numerals N, M, R (positive decimal
numbers without leading zero) with M, N*60 and R*60 within the 64-bit `int` range, the
text `/N` yields 1 pomodoro of N*60 seconds (and 0 seconds of rest), `/NforM` yields M
pomodoros of N*60 seconds with the default rest of 5*60 seconds, `/NforMrestR` yields
M pomodoros of N*60 seconds with R*60 seconds of rest; and a text with no slash
followed by a digit from 1 to 9, which is a text with no match of the pattern, yields
the empty optional. -/
theorem ParsePatternToSession_command_forms (dn dm dr : List Char)
    (hdn : isNumeral dn) (hdm : isNumeral dm) (hdr : isNumeral dr)
    (hN : (decimalValue dn : Int) * 60 ≤ maxInt)
    (hM : (decimalValue dm : Int) ≤ maxInt)
    (hR : (decimalValue dr : Int) * 60 ≤ maxInt) :
    ParsePatternToSession none ⟨'/' :: dn⟩
      = .returned (some ⟨1, decimalValue dn * 60, 0⟩) ∧
    ParsePatternToSession none ⟨'/' :: (dn ++ 'f' :: 'o' :: 'r' :: dm)⟩
      = .returned (some ⟨decimalValue dm, decimalValue dn * 60, 5 * 60⟩) ∧
    ParsePatternToSession none
        ⟨'/' :: (dn ++ 'f' :: 'o' :: 'r' :: (dm ++ 'r' :: 'e' :: 's' :: 't' :: dr))⟩
      = .returned (some ⟨decimalValue dm, decimalValue dn * 60, decimalValue dr * 60⟩) ∧
    ∀ text : String, ¬ hasCommand text.data →
      ParsePatternToSession none text = .returned none := by
  have hNpos : (0 : Int) ≤ decimalValue dn := Int.ofNat_nonneg _
  have hRpos : (0 : Int) ≤ decimalValue dr := Int.ofNat_nonneg _
  have hN1 : (decimalValue dn : Int) ≤ maxInt := by omega
  have hR1 : (decimalValue dr : Int) ≤ maxInt := by omega
  have hwN : wrapInt ((decimalValue dn : Int) * 60) = decimalValue dn * 60 :=
    wrapInt_of_range _ (by unfold minInt; omega) hN
  have hwR : wrapInt ((decimalValue dr : Int) * 60) = decimalValue dr * 60 :=
    wrapInt_of_range _ (by unfold minInt; omega) hR
  have han : Atoi dn = some (decimalValue dn : Int) := by
    rw [Atoi_numeral dn hdn]; simp [hN1]
  have ham : Atoi dm = some (decimalValue dm : Int) := by
    rw [Atoi_numeral dm hdm]; simp [hM]
  have har : Atoi dr = some (decimalValue dr : Int) := by
    rw [Atoi_numeral dr hdr]; simp [hR1]
  refine ⟨?_, ?_, ?_, ?_⟩
  · simp [ParsePatternToSession, firstSubmatch_of_matchAt _ _ _ _ (matchAt_minutes dn hdn),
      MinutesGroup, CardinalityGroup, RestGroup, han, Atoi_nil, hwN]
  · simp [ParsePatternToSession,
      firstSubmatch_of_matchAt _ _ _ _ (matchAt_minutes_for dn dm hdn hdm),
      MinutesGroup, CardinalityGroup, RestGroup, han, ham, Atoi_nil, hwN]
  · simp [ParsePatternToSession,
      firstSubmatch_of_matchAt _ _ _ _ (matchAt_minutes_for_rest dn dm dr hdn hdm hdr),
      MinutesGroup, CardinalityGroup, RestGroup, han, ham, har, hwN, hwR]
  · intro text htext
    simp [ParsePatternToSession, firstSubmatch_none_of_not_hasCommand _ htext]

/-- C11, witness: the three command forms of the help text, `/25`, `/30for4` and
`/25for4rest5`. -/
theorem ParsePatternToSession_command_forms_witness :
    ParsePatternToSession none "/25" = .returned (some ⟨1, 25 * 60, 0⟩) ∧
    ParsePatternToSession none "/30for4" = .returned (some ⟨4, 30 * 60, 5 * 60⟩) ∧
    ParsePatternToSession none "/25for4rest5" = .returned (some ⟨4, 25 * 60, 5 * 60⟩) :=
  have h := ParsePatternToSession_command_forms "25".data "4".data "5".data
    ⟨'2', ['5'], rfl, by decide, by decide⟩ ⟨'4', [], rfl, by decide, by decide⟩
    ⟨'5', [], rfl, by decide, by decide⟩ (by decide) (by decide) (by decide)
  have h30 := ParsePatternToSession_command_forms "30".data "4".data "5".data
    ⟨'3', ['0'], rfl, by decide, by decide⟩ ⟨'4', [], rfl, by decide, by decide⟩
    ⟨'5', [], rfl, by decide, by decide⟩ (by decide) (by decide) (by decide)
  ⟨h.1, h30.2.1, h.2.2.1⟩

/-- C11, counterexample: N = 153722867280912931 is written without leading zero and fits
a 64-bit `int`, but N*60 does not: `/153722867280912931` yields a pomodoro duration of
-9223372036854775756 seconds, which is not N*60. -/
theorem minutes_times_sixty_overflows :
    isNumeral "153722867280912931".data ∧
    (decimalValue "153722867280912931".data : Int) = 153722867280912931 ∧
    (153722867280912931 : Int) ≤ maxInt ∧
    ParsePatternToSession none "/153722867280912931"
      = .returned (some ⟨1, -9223372036854775756, 0⟩) ∧
    (-9223372036854775756 : Int) ≠ 153722867280912931 * 60 :=
  ⟨⟨'1', "53722867280912931".data, rfl, by decide, by decide⟩, by decide, by decide,
    by decide, by decide⟩

/-- C12, counterexample: the text `/25` yields a present value whose rest duration is 0,
which is not a positive number of seconds. -/
theorem single_sprint_command_has_no_rest :
    ∃ d, ParsePatternToSession none "/25" = .returned (some d) ∧
      d.RestDurationSet = 0 ∧ ¬ (0 < d.RestDurationSet) :=
  ⟨⟨1, 1500, 0⟩, by decide, rfl, by decide⟩

/-- C13: the default session is not the 4x25m+5m configuration. `DefaultSession` has 4
sprints and 25*60 seconds of work, but its rest duration is 25*60 seconds in the
configured and in the current field, not 5*60; it differs from what the command
`/25for4rest5` configures, which is 4 sprints, 25*60 seconds of work and 5*60 seconds
of rest. -/
theorem DefaultSession_rest_is_work_time :
    DefaultSession.SprintDurationSet = 4 ∧ DefaultSession.Data.SprintDuration = 4 ∧
    DefaultSession.PomodoroDurationSet = 25 * 60 ∧
    DefaultSession.Data.PomodoroDuration = 25 * 60 ∧
    DefaultSession.RestDurationSet = 25 * 60 ∧ DefaultSession.Data.RestDuration = 25 * 60 ∧
    DefaultSession.RestDurationSet ≠ 5 * 60 ∧ DefaultSession.Data.RestDuration ≠ 5 * 60 ∧
    ParsePatternToSession none "/25for4rest5" = .returned (some ⟨4, 25 * 60, 5 * 60⟩) ∧
    ParsePatternToSession none "/25for4rest5"
      ≠ .returned (some ⟨DefaultSession.SprintDurationSet,
          DefaultSession.PomodoroDurationSet, DefaultSession.RestDurationSet⟩) := by
  decide


/-- A positive number of minutes gives a positive number of seconds when the product fits
an `int`. -/
theorem wrapInt_times_sixty_pos (n : Nat) (h1 : 1 ≤ n) (h : (n : Int) * 60 ≤ maxInt) :
    0 < wrapInt ((n : Int) * 60) := by
  rw [wrapInt_of_range _ (by unfold minInt; omega) h]
  omega

/-- C12, amended: every value `ParsePatternToSession` produces with the default pattern
has a sprint count of at least 1; its pomodoro duration is N*60 in 64-bit arithmetic
for the matched numeral N, and positive whenever N*60 fits an `int`; its rest duration
is 0 with a sprint count of 1 (no usable sprint or rest part in the command), or 5*60,
or R*60 in 64-bit arithmetic for the matched numeral R, positive whenever R*60 fits an
`int`. -/
theorem ParsePatternToSession_value_bounds (text : String) (d : SessionDefaultData)
    (h : ParsePatternToSession none text = .returned (some d)) :
    1 ≤ d.SprintDurationSet ∧
    (∃ dn, isNumeral dn ∧ (decimalValue dn : Int) ≤ maxInt ∧
      d.PomodoroDurationSet = wrapInt ((decimalValue dn : Int) * 60) ∧
      ((decimalValue dn : Int) * 60 ≤ maxInt → 0 < d.PomodoroDurationSet)) ∧
    ((d.RestDurationSet = 0 ∧ d.SprintDurationSet = 1) ∨ d.RestDurationSet = 5 * 60 ∨
      ∃ dr, isNumeral dr ∧ (decimalValue dr : Int) ≤ maxInt ∧
        d.RestDurationSet = wrapInt ((decimalValue dr : Int) * 60) ∧
        ((decimalValue dr : Int) * 60 ≤ maxInt → 0 < d.RestDurationSet)) := by
  unfold ParsePatternToSession at h
  simp only [] at h
  cases hfs : firstSubmatch BasicPattern text.data with
  | none => simp [hfs] at h
  | some v =>
    obtain ⟨inp, hm⟩ := firstSubmatch_sound _ _ _ hfs
    obtain ⟨dn, hdn, h1, hgroups⟩ := matchAt_BasicPattern_sound inp v hm
    have hn1 := decimalValue_pos dn hdn
    simp only [hfs, MinutesGroup, CardinalityGroup, RestGroup, h1, Atoi_numeral dn hdn] at h
    by_cases hN : (decimalValue dn : Int) ≤ maxInt
    · simp only [hN, if_true] at h
      have hpom : ∀ x : Int, x = wrapInt ((decimalValue dn : Int) * 60) →
          ∃ dn, isNumeral dn ∧ (decimalValue dn : Int) ≤ maxInt ∧
            x = wrapInt ((decimalValue dn : Int) * 60) ∧
            ((decimalValue dn : Int) * 60 ≤ maxInt → 0 < x) :=
        fun x hx => ⟨dn, hdn, hN, hx,
          fun hfit => hx ▸ wrapInt_times_sixty_pos _ hn1 hfit⟩
      have hrestOf : ∀ (dr : List Char) (x : Int), isNumeral dr →
          (decimalValue dr : Int) ≤ maxInt → x = wrapInt ((decimalValue dr : Int) * 60) →
          ∃ dr, isNumeral dr ∧ (decimalValue dr : Int) ≤ maxInt ∧
            x = wrapInt ((decimalValue dr : Int) * 60) ∧
            ((decimalValue dr : Int) * 60 ≤ maxInt → 0 < x) :=
        fun dr x hdr hR hx => ⟨dr, hdr, hR, hx,
          fun hfit => hx ▸ wrapInt_times_sixty_pos _ (decimalValue_pos dr hdr) hfit⟩
      rcases hgroups with ⟨h3, h5⟩ | ⟨dm, hdm, h3, h5 | ⟨dr, hdr, h5⟩⟩
      · simp only [h3, h5, Atoi_nil, ParseResult.returned.injEq, Option.some.injEq] at h
        subst h
        exact ⟨le_refl _, hpom _ rfl, Or.inl ⟨rfl, rfl⟩⟩
      · have hm1 := decimalValue_pos dm hdm
        simp only [h3, h5, Atoi_nil, Atoi_numeral dm hdm] at h
        by_cases hM : (decimalValue dm : Int) ≤ maxInt
        · simp only [hM, if_true, ParseResult.returned.injEq, Option.some.injEq] at h
          subst h
          exact ⟨by simp only []; omega, hpom _ rfl, Or.inr (Or.inl rfl)⟩
        · simp only [hM, if_false, ParseResult.returned.injEq, Option.some.injEq] at h
          subst h
          exact ⟨le_refl _, hpom _ rfl, Or.inl ⟨rfl, rfl⟩⟩
      · have hm1 := decimalValue_pos dm hdm
        simp only [h3, h5, Atoi_numeral dm hdm, Atoi_numeral dr hdr] at h
        by_cases hM : (decimalValue dm : Int) ≤ maxInt <;>
          by_cases hR : (decimalValue dr : Int) ≤ maxInt
        · simp only [hM, hR, if_true, ParseResult.returned.injEq, Option.some.injEq] at h
          subst h
          exact ⟨by simp only []; omega, hpom _ rfl, Or.inr (Or.inr (hrestOf dr _ hdr hR rfl))⟩
        · simp only [hM, hR, if_true, if_false, ParseResult.returned.injEq,
            Option.some.injEq] at h
          subst h
          exact ⟨by simp only []; omega, hpom _ rfl, Or.inr (Or.inl rfl)⟩
        · simp only [hM, hR, if_true, if_false, ParseResult.returned.injEq,
            Option.some.injEq] at h
          subst h
          exact ⟨le_refl _, hpom _ rfl, Or.inr (Or.inr (hrestOf dr _ hdr hR rfl))⟩
        · simp only [hM, hR, if_false, ParseResult.returned.injEq, Option.some.injEq] at h
          subst h
          exact ⟨le_refl _, hpom _ rfl, Or.inl ⟨rfl, rfl⟩⟩
    · simp [hN] at h

/-- C12, witness: the value of the command `/25for4rest5`. -/
theorem ParsePatternToSession_value_bounds_witness :
    ParsePatternToSession none "/25for4rest5" = .returned (some ⟨4, 25 * 60, 5 * 60⟩) ∧
    (1 ≤ (4 : Int) ∧
    (∃ dn, isNumeral dn ∧ (decimalValue dn : Int) ≤ maxInt ∧
      (25 * 60 : Int) = wrapInt ((decimalValue dn : Int) * 60) ∧
      ((decimalValue dn : Int) * 60 ≤ maxInt → 0 < (25 * 60 : Int))) ∧
    (((5 * 60 : Int) = 0 ∧ (4 : Int) = 1) ∨ (5 * 60 : Int) = 5 * 60 ∨
      ∃ dr, isNumeral dr ∧ (decimalValue dr : Int) ≤ maxInt ∧
        (5 * 60 : Int) = wrapInt ((decimalValue dr : Int) * 60) ∧
        ((decimalValue dr : Int) * 60 ≤ maxInt → 0 < (5 * 60 : Int)))) :=
  ⟨by decide,
    ParsePatternToSession_value_bounds "/25for4rest5" ⟨4, 25 * 60, 5 * 60⟩ (by decide)⟩

end GoforPomodoro
